import Mathlib

/-!
MQTT driver layer of sysbench (`src/mqtt_driver.c`, `src/mqtt_driver.h`)

A shallow embedding of the driver registry and its registration `mqtt_register`, the
statistics flag, the run-once global initialisation (`mqtt_init` under `pthread_once`)
and the driver acquisition `mqtt_create`.

Conventions of the embedding.

* A pointer to a registered descriptor is the position of the descriptor in the
  registry (registration order, starting at 0); `NULL` is a separate value.
* Driver operations are external code.  A driver operation is a stub whose return
  value is a function of the number of earlier invocations of that operation on that
  descriptor (and, for `thread_init`, of the thread identifier passed in).  Every
  invocation is recorded, with its return value, in a chronological trace.
* Calls to other external collaborators (`log_text`, `mqtt_parse_arguments`,
  `mqtt_reset_stats`, `pthread_mutex_lock`, `pthread_mutex_unlock`) are recorded in the
  same trace.
* A call is one atomic step: `pthread_mutex_lock` acquires, `pthread_mutex_unlock`
  releases, waiting is not represented.
* Undefined behaviour of the C program (passing a null pointer to `strcmp`, using the
  list head as if it were embedded in a descriptor) is an explicit result.
-/

set_option autoImplicit false

namespace MqttDriver

/-! ## Data model -/

/-- Message priorities of the external logger that this file uses. -/
inductive log_msg_priority_t where
  | LOG_FATAL
  | LOG_NOTICE
  | LOG_INFO
  deriving DecidableEq, Repr

/-- Value types of a command line option (`sb_arg_type_t`), as far as this file uses them. -/
inductive sb_arg_type_t where
  | SB_ARG_TYPE_BOOL
  | SB_ARG_TYPE_STRING
  deriving DecidableEq, Repr

/-- Command line option description (`sb_arg_t`): name, help text, default value, type. -/
structure sb_arg_t where
  name : String
  desc : String
  value : Option String
  type : sb_arg_type_t
  deriving DecidableEq, Repr

/-- Calls that leave the translation unit, in the order in which they happen.
`drv` is the position of the descriptor in the registry. -/
inductive Event where
  | log_text (level : log_msg_priority_t) (fmt : String) (args : List (Option String))
  | parse_arguments (rc : Int)
  | reset_stats
  | mutex_lock (drv : Nat)
  | mutex_unlock (drv : Nat)
  | init (drv : Nat) (rc : Int)
  | thread_init (drv : Nat) (thread_id : Int) (rc : Int)
  deriving DecidableEq, Repr

/-- The struct `mqtt_globals_t`: the requested driver (a nullable string) and the debug flag. -/
structure mqtt_globals_t where
  driver : Option String
  debug : Nat
  deriving DecidableEq, Repr

/-- The part of `mqtt_ops_t` that `mqtt_create` calls.  `init` is a stub indexed by the
number of earlier `init` invocations on the descriptor; `thread_init` is a nullable
pointer to a stub taking the thread identifier and the number of earlier `thread_init`
invocations on the descriptor. -/
structure mqtt_ops_t where
  init : Nat → Int
  thread_init : Option (Int → Nat → Int)

/-- The struct `mqtt_driver_t`.  The `listitem` field is the position in the registry;
`mutex` is true while the mutex is held. -/
structure mqtt_driver_t where
  sname : String
  lname : String
  args : Option (List sb_arg_t)
  ops : mqtt_ops_t
  initialized : Bool
  mutex : Bool

/-- The file-level variables of `mqtt_driver.c`, the external variable
`db_globals.driver` that `mqtt_create` reads, the stub standing for the body of
`mqtt_parse_arguments`, and the trace of external calls. -/
structure State where
  mqtt_globals : mqtt_globals_t
  db_globals_driver : Option String
  drivers : List mqtt_driver_t
  stats_enabled : Nat
  mqtt_global_initialized : Bool
  mqtt_global_once : Bool
  parse_arguments_stub : mqtt_globals_t → Int × mqtt_globals_t
  trace : List Event

/-! ## The circular list `sb_list_t` -/

/-- A pointer to a list node: the head embedded in the list itself, or the node embedded
in the i-th descriptor. -/
inductive sb_list_item_t where
  | head
  | item (i : Nat)
  deriving DecidableEq, Repr

/-- Modelled from the spec: the macro `SB_LIST_ITEM_NEXT` of `sb_list.h` is not among the
sources; the registry is a circular doubly linked list with a head node, holding the
descriptors in registration order.  The argument `n` is the number of descriptors. -/
def SB_LIST_ITEM_NEXT (n : Nat) : sb_list_item_t → sb_list_item_t
  | .head => if 0 < n then .item 0 else .head
  | .item i => if i + 1 < n then .item (i + 1) else .head

/-- Modelled from the spec: the macro `SB_LIST_ITEM_PREV` of `sb_list.h` is not among the
sources; see `SB_LIST_ITEM_NEXT`. -/
def SB_LIST_ITEM_PREV (n : Nat) : sb_list_item_t → sb_list_item_t
  | .head => if 0 < n then .item (n - 1) else .head
  | .item i => if i = 0 then .head else .item (i - 1)

/-- Modelled from the spec: the macro `SB_LIST_IS_EMPTY` of `sb_list.h` is not among the
sources; the list is empty when the head is its own successor. -/
def SB_LIST_IS_EMPTY (drivers : List mqtt_driver_t) : Bool :=
  decide (SB_LIST_ITEM_NEXT drivers.length .head = .head)

/-- Modelled from the spec: the macro `SB_LIST_ENTRY` of `sb_list.h` is not among the
sources; it maps a node to the descriptor it is embedded in.  The head is embedded in no
descriptor, the result is then `none`. -/
def SB_LIST_ENTRY (drivers : List mqtt_driver_t) : sb_list_item_t → Option (Nat × mqtt_driver_t)
  | .head => none
  | .item i => drivers[i]?.map (fun d => (i, d))

/-! ## Trace and state helpers -/

/-- Recognises an invocation of `ops.init` of descriptor `i`. -/
def Event.is_init (i : Nat) : Event → Bool
  | .init j _ => decide (j = i)
  | _ => false

/-- Recognises an invocation of `ops.thread_init` of descriptor `i`. -/
def Event.is_thread_init (i : Nat) : Event → Bool
  | .thread_init j _ _ => decide (j = i)
  | _ => false

/-- Recognises an invocation of a driver operation, of any descriptor. -/
def Event.is_driver_op : Event → Bool
  | .init _ _ => true
  | .thread_init _ _ _ => true
  | _ => false

/-- Recognises a call made by the layer itself, outside any descriptor: logging, argument
parsing, statistics reset. -/
def Event.is_layer_call : Event → Bool
  | .log_text _ _ _ => true
  | .parse_arguments _ => true
  | .reset_stats => true
  | _ => false

/-- Number of invocations of `ops.init` of descriptor `i` in a trace. -/
def init_calls (i : Nat) (tr : List Event) : Nat := tr.countP (Event.is_init i)

/-- Number of invocations of `ops.thread_init` of descriptor `i` in a trace. -/
def thread_init_calls (i : Nat) (tr : List Event) : Nat := tr.countP (Event.is_thread_init i)

/-- Appends an external call to the trace. -/
def record (s : State) (e : Event) : State :=
  { s with trace := s.trace ++ [e] }

/-- The external logger `log_text`; a null string argument is `none`. -/
def log_text (s : State) (level : log_msg_priority_t) (fmt : String)
    (args : List (Option String)) : State :=
  record s (.log_text level fmt args)

/-- Applies `f` to the element at position `i`, if there is one. -/
def update_at (f : mqtt_driver_t → mqtt_driver_t) : List mqtt_driver_t → Nat → List mqtt_driver_t
  | [], _ => []
  | d :: ds, 0 => f d :: ds
  | d :: ds, i + 1 => d :: update_at f ds i

/-- A write through a descriptor pointer. -/
def modify_driver (s : State) (i : Nat) (f : mqtt_driver_t → mqtt_driver_t) : State :=
  { s with drivers := update_at f s.drivers i }

/-- The call `pthread_mutex_lock(&drv->mutex)`. -/
def pthread_mutex_lock (s : State) (i : Nat) : State :=
  record (modify_driver s i (fun d => { d with mutex := true })) (.mutex_lock i)

/-- The call `pthread_mutex_unlock(&drv->mutex)`. -/
def pthread_mutex_unlock (s : State) (i : Nat) : State :=
  record (modify_driver s i (fun d => { d with mutex := false })) (.mutex_unlock i)

/-! ## Statistics flag -/

/-- The function `enable_print_stats`: store 1 to `stats_enabled`. -/
def enable_print_stats (s : State) : State :=
  { s with stats_enabled := 1 }

/-- The function `disable_print_stats`: store 0 to `stats_enabled`. -/
def disable_print_stats (s : State) : State :=
  { s with stats_enabled := 0 }

/-- The function `check_print_stats`. -/
def check_print_stats (s : State) : Bool :=
  decide (s.stats_enabled = 1)

/-! ## Global initialisation -/

/-- Modelled from the spec: the body of `mqtt_parse_arguments` is not among the sources;
it parses the layer-wide configuration into `mqtt_globals` and returns non-zero on
failure.  What it computes is the stub carried by the state. -/
def mqtt_parse_arguments (s : State) : State × Int :=
  let r := s.parse_arguments_stub s.mqtt_globals
  (record { s with mqtt_globals := r.2 } (.parse_arguments r.1), r.1)

/-- Modelled from the spec: the body of `mqtt_reset_stats` is not among the sources; it
resets the statistics counters, which are outside this file. -/
def mqtt_reset_stats (s : State) : State :=
  record s .reset_stats

/-- The function `mqtt_init`. -/
def mqtt_init (s : State) : State :=
  if SB_LIST_IS_EMPTY s.drivers then
    log_text s .LOG_FATAL "No MQTT drivers available" []
  else
    let p := mqtt_parse_arguments s
    if p.2 ≠ 0 then
      p.1
    else
      let s1 := mqtt_reset_stats p.1
      let s2 := enable_print_stats s1
      { s2 with mqtt_global_initialized := true }

/-- The call `pthread_once(&mqtt_global_once, mqtt_init)`: `mqtt_init` runs unless the
latch is set, and the latch is set afterwards. -/
def pthread_once (s : State) : State :=
  if s.mqtt_global_once then s
  else { mqtt_init s with mqtt_global_once := true }

/-! ## Driver acquisition -/

/-- Undefined behaviour that `mqtt_create` can run into. -/
inductive mqtt_fault where
  | strcmp_null_name
  | entry_of_list_head
  deriving DecidableEq, Repr

/-- Result of the selection part of `mqtt_create`: the value of `drv` (a descriptor
pointer together with the descriptor it points to), the jump to `err`, or undefined
behaviour. -/
inductive mqtt_selection where
  | found (i : Nat) (d : mqtt_driver_t)
  | err
  | fault (f : mqtt_fault)

/-- Result of the lookup loop of `mqtt_create`. -/
inductive mqtt_lookup where
  | found (i : Nat) (d : mqtt_driver_t)
  | not_found
  | strcmp_null

/-- The loop `SB_LIST_FOR_EACH(pos, &drivers)` of `mqtt_create`, started at the node of
position `i`: the first descriptor whose `sname` compares equal to `name` is assigned to
`drv`.  Each iteration passes `name` to `strcmp`. -/
def lookup_loop (name : Option String) : List mqtt_driver_t → Nat → mqtt_lookup
  | [], _ => .not_found
  | tmp :: rest, i =>
    match name with
    | none => .strcmp_null
    | some n => if tmp.sname = n then .found i tmp else lookup_loop name rest (i + 1)

/-- Lines 172 to 206 of `mqtt_create`: the choice of the descriptor. -/
def mqtt_select (s : State) (name : Option String) : State × mqtt_selection :=
  if name = none ∧ s.db_globals_driver = none then
    match SB_LIST_ENTRY s.drivers (SB_LIST_ITEM_NEXT s.drivers.length .head) with
    | none => (s, .fault .entry_of_list_head)
    | some (i, drv) =>
      if SB_LIST_ITEM_NEXT s.drivers.length (.item i) = SB_LIST_ITEM_PREV s.drivers.length (.item i) then
        (log_text s .LOG_INFO "No MQTT drivers specified, using %s" [some drv.sname], .found i drv)
      else
        (log_text s .LOG_FATAL
          "Multiple MQTT drivers are available. Use --mqtt-driver=name to specify which one to use" [],
          .err)
  else
    let name1 := if name = none then s.mqtt_globals.driver else name
    match lookup_loop name1 s.drivers 0 with
    | .strcmp_null => (s, .fault .strcmp_null_name)
    | .found i drv => (s, .found i drv)
    | .not_found => (log_text s .LOG_FATAL "invalid mqtt driver name: '%s'" [name1], .err)

/-- Lines 208 to 219 of `mqtt_create`: the one-time initialisation of the chosen driver
under its mutex.  The fields of the descriptor are read from `drv`, the descriptor at
position `i`; writes go to position `i` of the registry.  The second component is true
when the jump to `err` is taken. -/
def mqtt_init_driver (s : State) (i : Nat) (drv : mqtt_driver_t) : State × Bool :=
  let s1 := pthread_mutex_lock s i
  if drv.initialized = false then
    let rc := drv.ops.init (init_calls i s1.trace)
    let s2 := record s1 (.init i rc)
    if rc ≠ 0 then
      (pthread_mutex_unlock s2 i, true)
    else
      (pthread_mutex_unlock (modify_driver s2 i (fun d => { d with initialized := true })) i, false)
  else
    (pthread_mutex_unlock s1 i, false)

/-- Value returned by `mqtt_create`: a descriptor pointer, `NULL`, or no defined value. -/
inductive mqtt_ret where
  | drv (i : Nat)
  | NULL
  | undefined (f : mqtt_fault)
  deriving DecidableEq, Repr

/-- State after a call of `mqtt_create` together with the returned value. -/
structure mqtt_create_result where
  state : State
  ret : mqtt_ret

/-- Lines 221 to 227 of `mqtt_create`: the thread-local initialisation and the return of
the handle. -/
def mqtt_thread_init (s : State) (i : Nat) (drv : mqtt_driver_t) (sb_tls_thread_id : Int) :
    mqtt_create_result :=
  match drv.ops.thread_init with
  | none => ⟨s, .drv i⟩
  | some f =>
    let rc := f sb_tls_thread_id (thread_init_calls i s.trace)
    let s1 := record s (.thread_init i sb_tls_thread_id rc)
    if rc ≠ 0 then
      ⟨log_text s1 .LOG_FATAL "thread-local driver initialization failed." [], .NULL⟩
    else
      ⟨s1, .drv i⟩

/-- Lines 208 to 227 of `mqtt_create`: what happens once `drv` points to descriptor `i`. -/
def mqtt_create_init (s : State) (i : Nat) (drv : mqtt_driver_t) (sb_tls_thread_id : Int) :
    mqtt_create_result :=
  match mqtt_init_driver s i drv with
  | (s1, true) => ⟨s1, .NULL⟩
  | (s1, false) => mqtt_thread_init s1 i drv sb_tls_thread_id

/-- The function `mqtt_create`, called by the thread whose `sb_tls_thread_id` is given. -/
def mqtt_create (s : State) (name : Option String) (sb_tls_thread_id : Int) : mqtt_create_result :=
  let s1 := pthread_once s
  if s1.mqtt_global_initialized = false then
    ⟨s1, .NULL⟩
  else
    match mqtt_select s1 name with
    | (s2, .fault f) => ⟨s2, .undefined f⟩
    | (s2, .err) => ⟨s2, .NULL⟩
    | (s2, .found i drv) => mqtt_create_init s2 i drv sb_tls_thread_id

/-! ## Registration -/

/-- The table `mqtt_args` without its end marker.  `USE_MOSQ` tells whether the macro of
that name is defined; it selects the default value of `mqtt-driver`. -/
def mqtt_args (USE_MOSQ : Bool) : List sb_arg_t :=
  [ { name := "mqtt-driver",
      desc := "specifies mqtt driver to use ('help' to get list of available drivers)",
      value := if USE_MOSQ then some "mosquitto" else none,
      type := .SB_ARG_TYPE_STRING },
    { name := "mqtt-debug",
      desc := "print mqtt-specific debug information",
      value := some "off",
      type := .SB_ARG_TYPE_BOOL } ]

/-- Modelled from the spec: the function `sb_register_arg_set` is not among the sources;
it adds an option set to the global command line option set, which is kept here as the
list of the registered sets in the order of registration. -/
def sb_register_arg_set (options : List (List sb_arg_t)) (set : List sb_arg_t) :
    List (List sb_arg_t) :=
  options ++ [set]

/-- The loop `SB_LIST_FOR_EACH(pos, &drivers)` of `mqtt_register`: the declared options
of each descriptor are registered unless `args` is null, the `initialized` flag is
cleared and the mutex is initialised. -/
def mqtt_register_loop :
    List mqtt_driver_t → List (List sb_arg_t) → List mqtt_driver_t × List (List sb_arg_t)
  | [], options => ([], options)
  | drv :: rest, options =>
    let options1 :=
      match drv.args with
      | some args => sb_register_arg_set options args
      | none => options
    let r := mqtt_register_loop rest options1
    ({ drv with initialized := false, mutex := false } :: r.1, r.2)

/-- State, global option set and return value after `mqtt_register`. -/
structure mqtt_register_result where
  state : State
  options : List (List sb_arg_t)
  ret : Int

/-- The function `mqtt_register`.  `registrars` are the descriptors that the compiled-in
registrars (`register_driver_mosquitto`, `register_driver_paho`, not among the sources)
append to the list emptied by `SB_LIST_INIT`, in order; `db_args` is the table of that
name, which this file does not declare; `options` is the global option set before the
call. -/
def mqtt_register (s : State) (registrars : List mqtt_driver_t) (db_args : List sb_arg_t)
    (options : List (List sb_arg_t)) : mqtt_register_result :=
  let r := mqtt_register_loop registrars options
  { state := { s with drivers := r.1 },
    options := sb_register_arg_set r.2 db_args,
    ret := 0 }

/-! ## Sample states -/

/-- A freshly registered driver stub with the given `init` and `thread_init`. -/
def stub_driver_with (sname : String) (init : Nat → Int)
    (thread_init : Option (Int → Nat → Int)) : mqtt_driver_t :=
  { sname := sname, lname := sname, args := none,
    ops := { init := init, thread_init := thread_init },
    initialized := false, mutex := false }

/-- A driver stub whose `init` always succeeds and that has no `thread_init`. -/
def stub_driver (sname : String) : mqtt_driver_t :=
  stub_driver_with sname (fun _ => 0) none

/-- An `init` stub that fails on its first invocation and succeeds afterwards. -/
def init_fails_once : Nat → Int := fun n => if n = 0 then 1 else 0

/-- A process state right after registration of the given descriptors: nothing
initialised, argument parsing succeeds and stores the given driver name. -/
def fresh_state (drivers : List mqtt_driver_t) (mqtt_driver db_driver : Option String) : State :=
  { mqtt_globals := { driver := none, debug := 0 },
    db_globals_driver := db_driver,
    drivers := drivers,
    stats_enabled := 0,
    mqtt_global_initialized := false,
    mqtt_global_once := false,
    parse_arguments_stub := fun g => (0, { g with driver := mqtt_driver }),
    trace := [] }

/-! ## Specification vocabulary -/

/-- Position `i` of the registry holds `d`, and `d` is the first descriptor in
registration order whose short name equals `n`. -/
def first_match (drivers : List mqtt_driver_t) (n : String) (i : Nat) (d : mqtt_driver_t) : Prop :=
  drivers[i]? = some d ∧ d.sname = n ∧
    ∀ j e, j < i → drivers[j]? = some e → e.sname ≠ n

/-- The one-time initialisation of descriptor `i` is already done in state `s`, or the
next invocation of its `ops.init` returns 0. -/
def init_passes (s : State) (i : Nat) (d : mqtt_driver_t) : Bool :=
  d.initialized || decide (d.ops.init (init_calls i s.trace) = 0)

/-- The `ops.thread_init` of descriptor `i` is absent, or its next invocation for thread
`tid` returns 0. -/
def thread_init_passes (s : State) (i : Nat) (d : mqtt_driver_t) (tid : Int) : Bool :=
  match d.ops.thread_init with
  | none => true
  | some f => decide (f tid (thread_init_calls i s.trace) = 0)

/-- The selection part of `mqtt_create` called in state `s` with `name` is reached
(global initialisation is complete) and chooses descriptor `d` at position `i`. -/
def resolves_to (s : State) (name : Option String) (i : Nat) (d : mqtt_driver_t) : Prop :=
  (pthread_once s).mqtt_global_initialized = true ∧
    (mqtt_select (pthread_once s) name).2 = .found i d

/-- The external calls made by one call of `mqtt_create`, in order. -/
def mqtt_create_events (s : State) (name : Option String) (tid : Int) : List Event :=
  (mqtt_create s name tid).state.trace.drop s.trace.length

/-- Recognises an invocation of `ops.thread_init`, of any descriptor. -/
def Event.is_any_thread_init : Event → Bool
  | .thread_init _ _ _ => true
  | _ => false

/-- A sequence of `mqtt_create` calls, each an atomic step, given by the name argument
and the calling thread of each call.  The run ends at a call with undefined behaviour. -/
def mqtt_create_calls (s : State) : List (Option String × Int) → State × List mqtt_ret
  | [] => (s, [])
  | (name, tid) :: rest =>
    let r := mqtt_create s name tid
    match r.ret with
    | .undefined f => (r.state, [.undefined f])
    | _ => ((mqtt_create_calls r.state rest).1, r.ret :: (mqtt_create_calls r.state rest).2)

/-- Recognises an invocation of `ops.init` of descriptor `i` that returned 0. -/
def Event.is_init_ok (i : Nat) : Event → Bool
  | .init j rc => decide (j = i) && decide (rc = 0)
  | _ => false

/-- Recognises an invocation of `ops.init` of descriptor `i` that returned non-zero. -/
def Event.is_init_failed (i : Nat) : Event → Bool
  | .init j rc => decide (j = i) && decide (rc ≠ 0)
  | _ => false

/-- Number of invocations of `ops.init` of descriptor `i` in a trace that returned 0. -/
def init_ok_calls (i : Nat) (tr : List Event) : Nat := tr.countP (Event.is_init_ok i)

/-- Number of invocations of `ops.init` of descriptor `i` in a trace that returned
non-zero. -/
def init_failed_calls (i : Nat) (tr : List Event) : Nat := tr.countP (Event.is_init_failed i)

/-- The `initialized` flag of the descriptor at position `i`; false when there is none. -/
def initialized_at (s : State) (i : Nat) : Bool :=
  match s.drivers[i]? with
  | some d => d.initialized
  | none => false

/-- The external calls made by a sequence of `mqtt_create` calls, in order. -/
def mqtt_create_calls_events (s : State) (calls : List (Option String × Int)) : List Event :=
  (mqtt_create_calls s calls).1.trace.drop s.trace.length

/-- The variables of the layer other than the registry and the trace agree in two
states. -/
def same_globals (a b : State) : Prop :=
  a.mqtt_globals = b.mqtt_globals ∧ a.db_globals_driver = b.db_globals_driver ∧
    a.stats_enabled = b.stats_enabled ∧
    a.mqtt_global_initialized = b.mqtt_global_initialized ∧
    a.mqtt_global_once = b.mqtt_global_once ∧
    a.parse_arguments_stub = b.parse_arguments_stub

/-- The process state before the first `mqtt_create` call: the latch of `pthread_once`
is not set, and the static variables `mqtt_global_initialized` and `stats_enabled` hold
their initial value zero. -/
def initial_state (s : State) : Prop :=
  s.mqtt_global_once = false ∧ s.mqtt_global_initialized = false ∧ s.stats_enabled = 0

/-- Whether the mutex of descriptor `i` is held after the given calls, when `held` tells
whether it is held before them. -/
def mutex_held (i : Nat) : Bool → List Event → Bool
  | held, [] => held
  | held, .mutex_lock j :: evs => mutex_held i (if j = i then true else held) evs
  | held, .mutex_unlock j :: evs => mutex_held i (if j = i then false else held) evs
  | held, _ :: evs => mutex_held i held evs

/-- Checks a sequence of calls against the lock discipline of descriptor `i`, when `held`
tells whether its mutex is held before them: every `init` of `i` happens with the mutex
held, every `thread_init` of `i` with the mutex released. -/
def lock_discipline (i : Nat) : Bool → List Event → Bool
  | _, [] => true
  | held, .mutex_lock j :: evs => lock_discipline i (if j = i then true else held) evs
  | held, .mutex_unlock j :: evs => lock_discipline i (if j = i then false else held) evs
  | held, .init j _ :: evs => (decide (j ≠ i) || held) && lock_discipline i held evs
  | held, .thread_init j _ _ :: evs => (decide (j ≠ i) || !held) && lock_discipline i held evs
  | held, _ :: evs => lock_discipline i held evs

/-- A call of one of the two entry points of the layer that this file has: `mqtt_register`
with the descriptors of the compiled-in registrars and the table `db_args`, or
`mqtt_create` with its name argument and the calling thread. -/
inductive mqtt_api_call where
  | register (registrars : List mqtt_driver_t) (db_args : List sb_arg_t)
  | create (name : Option String) (tid : Int)

/-- The state after a sequence of calls of the entry points, each an atomic step.  The
run ends at a call with undefined behaviour.  The global option set, on which the state
does not depend, is not followed. -/
def mqtt_api_calls (s : State) : List mqtt_api_call → State
  | [] => s
  | .register registrars db_args :: rest =>
    mqtt_api_calls (mqtt_register s registrars db_args []).state rest
  | .create name tid :: rest =>
    match (mqtt_create s name tid).ret with
    | .undefined _ => (mqtt_create s name tid).state
    | _ => mqtt_api_calls (mqtt_create s name tid).state rest

/-- The option table of the DB layer, as an example of a table that `db_args` can name. -/
def sample_db_args : List sb_arg_t :=
  [ { name := "db-driver",
      desc := "specifies database driver to use ('help' to get list of available drivers)",
      value := some "mysql",
      type := .SB_ARG_TYPE_STRING },
    { name := "db-debug",
      desc := "print database-specific debug information",
      value := some "off",
      type := .SB_ARG_TYPE_BOOL } ]

/-! ## Lemmas on the helpers -/

theorem update_at_length (f : mqtt_driver_t → mqtt_driver_t) (ds : List mqtt_driver_t) (i : Nat) :
    (update_at f ds i).length = ds.length := by
  induction ds generalizing i with
  | nil => rfl
  | cons d ds ih => cases i <;> simp [update_at, ih]

theorem update_at_getElem? (f : mqtt_driver_t → mqtt_driver_t) (ds : List mqtt_driver_t) (i j : Nat) :
    (update_at f ds i)[j]? = if j = i then ds[j]?.map f else ds[j]? := by
  induction ds generalizing i j with
  | nil => cases i <;> simp [update_at]
  | cons d ds ih =>
    cases i with
    | zero => cases j <;> simp [update_at]
    | succ i => cases j <;> simp [update_at, ih]

theorem lookup_loop_found (n : String) (ds : List mqtt_driver_t) (k : Nat)
    (h : ∃ d ∈ ds, d.sname = n) :
    ∃ i d, lookup_loop (some n) ds k = .found (k + i) d ∧ first_match ds n i d := by
  induction ds generalizing k with
  | nil => simp at h
  | cons a ds ih =>
    by_cases ha : a.sname = n
    · exact ⟨0, a, by simp [lookup_loop, ha], by simp [first_match, ha]⟩
    · have h1 : ∃ d ∈ ds, d.sname = n := by
        obtain ⟨d, hd, hn⟩ := h
        rcases List.mem_cons.mp hd with rfl | hd
        · exact absurd hn ha
        · exact ⟨d, hd, hn⟩
      obtain ⟨i, d, hl, hg, hs, hf⟩ := ih (k + 1) h1
      refine ⟨i + 1, d, ?_, ?_, hs, ?_⟩
      · simp [lookup_loop, ha, hl, Nat.add_assoc, Nat.add_comm 1 i]
      · simpa using hg
      · intro j e hj hje
        cases j with
        | zero =>
          simp at hje
          subst hje
          exact ha
        | succ j => exact hf j e (by omega) (by simpa using hje)

theorem lookup_loop_not_found (n : String) (ds : List mqtt_driver_t) (k : Nat)
    (h : ∀ d ∈ ds, d.sname ≠ n) :
    lookup_loop (some n) ds k = .not_found := by
  induction ds generalizing k with
  | nil => rfl
  | cons a ds ih =>
    have ha : a.sname ≠ n := h a (List.mem_cons_self _ _)
    simp [lookup_loop, ha]
    exact ih (k + 1) (fun d hd => h d (List.mem_cons_of_mem _ hd))

theorem layer_call_quiet (evs : List Event) (h : ∀ e ∈ evs, e.is_layer_call = true) :
    ∀ e ∈ evs, e.is_driver_op = false := by
  intro e he
  have := h e he
  cases e <;> simp_all [Event.is_layer_call, Event.is_driver_op]

/-- Events that are no invocation of a driver operation leave the `init` count alone. -/
theorem init_calls_append_quiet (i : Nat) (tr evs : List Event)
    (h : ∀ e ∈ evs, e.is_driver_op = false) :
    init_calls i (tr ++ evs) = init_calls i tr := by
  unfold init_calls
  have hz : List.countP (Event.is_init i) evs = 0 := by
    rw [List.countP_eq_zero]
    intro e he
    have := h e he
    cases e <;> simp_all [Event.is_driver_op, Event.is_init]
  rw [List.countP_append, hz, Nat.add_zero]

/-- Events that are no invocation of a driver operation leave the `thread_init` count alone. -/
theorem thread_init_calls_append_quiet (i : Nat) (tr evs : List Event)
    (h : ∀ e ∈ evs, e.is_driver_op = false) :
    thread_init_calls i (tr ++ evs) = thread_init_calls i tr := by
  unfold thread_init_calls
  have hz : List.countP (Event.is_thread_init i) evs = 0 := by
    rw [List.countP_eq_zero]
    intro e he
    have := h e he
    cases e <;> simp_all [Event.is_driver_op, Event.is_thread_init]
  rw [List.countP_append, hz, Nat.add_zero]

theorem mqtt_init_empty (s : State) (h : SB_LIST_IS_EMPTY s.drivers = true) :
    mqtt_init s = log_text s .LOG_FATAL "No MQTT drivers available" [] := by
  simp [mqtt_init, h]

theorem mqtt_init_parse_failed (s : State) (h : SB_LIST_IS_EMPTY s.drivers = false)
    (hp : (mqtt_parse_arguments s).2 ≠ 0) :
    mqtt_init s = (mqtt_parse_arguments s).1 := by
  simp [mqtt_init, h, hp]

theorem mqtt_init_done (s : State) (h : SB_LIST_IS_EMPTY s.drivers = false)
    (hp : (mqtt_parse_arguments s).2 = 0) :
    mqtt_init s =
      { enable_print_stats (mqtt_reset_stats (mqtt_parse_arguments s).1) with
        mqtt_global_initialized := true } := by
  simp [mqtt_init, h, hp]

theorem mqtt_init_drivers (s : State) : (mqtt_init s).drivers = s.drivers := by
  by_cases h : SB_LIST_IS_EMPTY s.drivers = true
  · rw [mqtt_init_empty s h]; rfl
  · simp only [Bool.not_eq_true] at h
    by_cases hp : (mqtt_parse_arguments s).2 = 0
    · rw [mqtt_init_done s h hp]; rfl
    · rw [mqtt_init_parse_failed s h hp]; rfl

theorem mqtt_init_db_globals_driver (s : State) :
    (mqtt_init s).db_globals_driver = s.db_globals_driver := by
  by_cases h : SB_LIST_IS_EMPTY s.drivers = true
  · rw [mqtt_init_empty s h]; rfl
  · simp only [Bool.not_eq_true] at h
    by_cases hp : (mqtt_parse_arguments s).2 = 0
    · rw [mqtt_init_done s h hp]; rfl
    · rw [mqtt_init_parse_failed s h hp]; rfl

theorem mqtt_init_trace (s : State) :
    ∃ evs, (mqtt_init s).trace = s.trace ++ evs ∧ ∀ e ∈ evs, e.is_layer_call = true := by
  by_cases h : SB_LIST_IS_EMPTY s.drivers = true
  · rw [mqtt_init_empty s h]
    exact ⟨[_], rfl, by simp [Event.is_layer_call]⟩
  · simp only [Bool.not_eq_true] at h
    by_cases hp : (mqtt_parse_arguments s).2 = 0
    · rw [mqtt_init_done s h hp]
      exact ⟨[.parse_arguments (s.parse_arguments_stub s.mqtt_globals).1, .reset_stats],
          by simp [mqtt_reset_stats, enable_print_stats, mqtt_parse_arguments, record],
          by simp [Event.is_layer_call]⟩
    · rw [mqtt_init_parse_failed s h hp]
      exact ⟨[_], rfl, by simp [Event.is_layer_call]⟩

theorem pthread_once_drivers (s : State) : (pthread_once s).drivers = s.drivers := by
  unfold pthread_once
  split
  · rfl
  · exact mqtt_init_drivers s

theorem pthread_once_db_globals_driver (s : State) :
    (pthread_once s).db_globals_driver = s.db_globals_driver := by
  unfold pthread_once
  split
  · rfl
  · exact mqtt_init_db_globals_driver s

theorem pthread_once_trace (s : State) :
    ∃ evs, (pthread_once s).trace = s.trace ++ evs ∧ ∀ e ∈ evs, e.is_layer_call = true := by
  unfold pthread_once
  split
  · exact ⟨[], by simp, by simp⟩
  · exact mqtt_init_trace s

@[simp] theorem record_trace (s : State) (e : Event) : (record s e).trace = s.trace ++ [e] := rfl

@[simp] theorem record_drivers (s : State) (e : Event) : (record s e).drivers = s.drivers := rfl

@[simp] theorem modify_driver_trace (s : State) (i : Nat) (f : mqtt_driver_t → mqtt_driver_t) :
    (modify_driver s i f).trace = s.trace := rfl

@[simp] theorem modify_driver_drivers (s : State) (i : Nat) (f : mqtt_driver_t → mqtt_driver_t) :
    (modify_driver s i f).drivers = update_at f s.drivers i := rfl

@[simp] theorem pthread_mutex_lock_trace (s : State) (i : Nat) :
    (pthread_mutex_lock s i).trace = s.trace ++ [.mutex_lock i] := rfl

@[simp] theorem pthread_mutex_unlock_trace (s : State) (i : Nat) :
    (pthread_mutex_unlock s i).trace = s.trace ++ [.mutex_unlock i] := rfl

@[simp] theorem pthread_mutex_lock_drivers (s : State) (i : Nat) :
    (pthread_mutex_lock s i).drivers = update_at (fun d => { d with mutex := true }) s.drivers i := rfl

@[simp] theorem pthread_mutex_unlock_drivers (s : State) (i : Nat) :
    (pthread_mutex_unlock s i).drivers =
      update_at (fun d => { d with mutex := false }) s.drivers i := rfl

theorem init_calls_append (i : Nat) (tr evs : List Event) :
    init_calls i (tr ++ evs) = init_calls i tr + init_calls i evs := by
  simp [init_calls, List.countP_append]

theorem thread_init_calls_append (i : Nat) (tr evs : List Event) :
    thread_init_calls i (tr ++ evs) = thread_init_calls i tr + thread_init_calls i evs := by
  simp [thread_init_calls, List.countP_append]

theorem init_calls_snoc (i : Nat) (tr : List Event) (e : Event) :
    init_calls i (tr ++ [e]) = init_calls i tr + if e.is_init i = true then 1 else 0 := by
  simp [init_calls, List.countP_append, List.countP_cons]

theorem thread_init_calls_snoc (i : Nat) (tr : List Event) (e : Event) :
    thread_init_calls i (tr ++ [e]) =
      thread_init_calls i tr + if e.is_thread_init i = true then 1 else 0 := by
  simp [thread_init_calls, List.countP_append, List.countP_cons]

theorem mqtt_init_driver_already (s : State) (i : Nat) (d : mqtt_driver_t)
    (h : d.initialized = true) :
    mqtt_init_driver s i d = (pthread_mutex_unlock (pthread_mutex_lock s i) i, false) := by
  simp [mqtt_init_driver, h]

theorem mqtt_init_driver_failed (s : State) (i : Nat) (d : mqtt_driver_t)
    (h : d.initialized = false) (hrc : d.ops.init (init_calls i s.trace) ≠ 0) :
    mqtt_init_driver s i d =
      (pthread_mutex_unlock
        (record (pthread_mutex_lock s i) (.init i (d.ops.init (init_calls i s.trace)))) i,
        true) := by
  simp [mqtt_init_driver, h, init_calls_snoc, Event.is_init, hrc]

theorem mqtt_init_driver_done (s : State) (i : Nat) (d : mqtt_driver_t)
    (h : d.initialized = false) (hrc : d.ops.init (init_calls i s.trace) = 0) :
    mqtt_init_driver s i d =
      (pthread_mutex_unlock
        (modify_driver (record (pthread_mutex_lock s i) (.init i 0)) i
          (fun d => { d with initialized := true })) i,
        false) := by
  simp [mqtt_init_driver, h, init_calls_snoc, Event.is_init, hrc]

theorem mqtt_thread_init_absent (s : State) (i : Nat) (d : mqtt_driver_t) (tid : Int)
    (h : d.ops.thread_init = none) :
    mqtt_thread_init s i d tid = ⟨s, .drv i⟩ := by
  simp [mqtt_thread_init, h]

theorem mqtt_thread_init_failed (s : State) (i : Nat) (d : mqtt_driver_t) (tid : Int)
    (f : Int → Nat → Int) (h : d.ops.thread_init = some f)
    (hrc : f tid (thread_init_calls i s.trace) ≠ 0) :
    mqtt_thread_init s i d tid =
      ⟨log_text (record s (.thread_init i tid (f tid (thread_init_calls i s.trace)))) .LOG_FATAL
        "thread-local driver initialization failed." [], .NULL⟩ := by
  simp [mqtt_thread_init, h, hrc]

theorem mqtt_thread_init_done (s : State) (i : Nat) (d : mqtt_driver_t) (tid : Int)
    (f : Int → Nat → Int) (h : d.ops.thread_init = some f)
    (hrc : f tid (thread_init_calls i s.trace) = 0) :
    mqtt_thread_init s i d tid = ⟨record s (.thread_init i tid 0), .drv i⟩ := by
  simp [mqtt_thread_init, h, hrc]

/-- The trace after the one-time initialisation section holds no `thread_init` call more
than the trace before it. -/
theorem mqtt_init_driver_thread_init_calls (s : State) (i j : Nat) (d : mqtt_driver_t) :
    thread_init_calls j (mqtt_init_driver s i d).1.trace = thread_init_calls j s.trace := by
  cases h : d.initialized
  · by_cases hrc : d.ops.init (init_calls i s.trace) = 0
    · simp [mqtt_init_driver_done s i d h hrc, thread_init_calls_append]
      simp [thread_init_calls, Event.is_thread_init]
    · simp [mqtt_init_driver_failed s i d h hrc, thread_init_calls_append]
      simp [thread_init_calls, Event.is_thread_init]
  · simp [mqtt_init_driver_already s i d h, thread_init_calls_append]
    simp [thread_init_calls, Event.is_thread_init]

theorem mqtt_select_named (s : State) (n : String) :
    mqtt_select s (some n) =
      match lookup_loop (some n) s.drivers 0 with
      | .strcmp_null => (s, .fault .strcmp_null_name)
      | .found i drv => (s, .found i drv)
      | .not_found => (log_text s .LOG_FATAL "invalid mqtt driver name: '%s'" [some n], .err) := by
  simp [mqtt_select]

theorem mqtt_create_init_eq (s2 : State) (i : Nat) (d : mqtt_driver_t) (tid : Int) :
    mqtt_create_init s2 i d tid =
      if (mqtt_init_driver s2 i d).2 = true then ⟨(mqtt_init_driver s2 i d).1, .NULL⟩
      else mqtt_thread_init (mqtt_init_driver s2 i d).1 i d tid := by
  unfold mqtt_create_init
  rcases h : mqtt_init_driver s2 i d with ⟨s3, b⟩
  cases b <;> simp

theorem mqtt_create_of_found (s : State) (name : Option String) (tid : Int) (s2 : State)
    (i : Nat) (d : mqtt_driver_t)
    (hg : (pthread_once s).mqtt_global_initialized = true)
    (hsel : mqtt_select (pthread_once s) name = (s2, .found i d)) :
    mqtt_create s name tid =
      if (mqtt_init_driver s2 i d).2 = true then ⟨(mqtt_init_driver s2 i d).1, .NULL⟩
      else mqtt_thread_init (mqtt_init_driver s2 i d).1 i d tid := by
  simp only [mqtt_create, hg, hsel]
  exact mqtt_create_init_eq s2 i d tid

/-- The outcome of `mqtt_create` once a descriptor is chosen whose one-time
initialisation and thread-local initialisation both pass. -/
theorem mqtt_create_of_found_passes (s : State) (name : Option String) (tid : Int) (s2 : State)
    (i : Nat) (d : mqtt_driver_t)
    (hg : (pthread_once s).mqtt_global_initialized = true)
    (hsel : mqtt_select (pthread_once s) name = (s2, .found i d))
    (hip : init_passes s2 i d = true) (htp : thread_init_passes s2 i d tid = true) :
    (mqtt_create s name tid).ret = .drv i := by
  rw [mqtt_create_of_found s name tid s2 i d hg hsel]
  have h2 : (mqtt_init_driver s2 i d).2 = false := by
    cases h : d.initialized
    · have hrc : d.ops.init (init_calls i s2.trace) = 0 := by
        simpa [init_passes, h] using hip
      rw [mqtt_init_driver_done s2 i d h hrc]
    · rw [mqtt_init_driver_already s2 i d h]
  simp only [h2, Bool.false_eq_true, if_false]
  cases ht : d.ops.thread_init with
  | none => rw [mqtt_thread_init_absent _ i d tid ht]
  | some f =>
    have hrc : f tid (thread_init_calls i (mqtt_init_driver s2 i d).1.trace) = 0 := by
      rw [mqtt_init_driver_thread_init_calls]
      simpa [thread_init_passes, ht] using htp
    rw [mqtt_thread_init_done _ i d tid f ht hrc]

/-- The passing conditions only read the counts of driver calls in the trace. -/
theorem init_passes_congr (s s2 : State) (i : Nat) (d : mqtt_driver_t)
    (h : init_calls i s2.trace = init_calls i s.trace) :
    init_passes s2 i d = init_passes s i d := by
  simp [init_passes, h]

theorem thread_init_passes_congr (s s2 : State) (i : Nat) (d : mqtt_driver_t) (tid : Int)
    (h : thread_init_calls i s2.trace = thread_init_calls i s.trace) :
    thread_init_passes s2 i d tid = thread_init_passes s i d tid := by
  simp [thread_init_passes, h]

theorem pthread_once_init_calls (s : State) (i : Nat) :
    init_calls i (pthread_once s).trace = init_calls i s.trace := by
  obtain ⟨evs, htr, hq⟩ := pthread_once_trace s
  rw [htr, init_calls_append_quiet i _ _ (layer_call_quiet evs hq)]

theorem pthread_once_thread_init_calls (s : State) (i : Nat) :
    thread_init_calls i (pthread_once s).trace = thread_init_calls i s.trace := by
  obtain ⟨evs, htr, hq⟩ := pthread_once_trace s
  rw [htr, thread_init_calls_append_quiet i _ _ (layer_call_quiet evs hq)]

/-! ## C1: selection by name -/

/-- C1. For every state and every non-null name `n` that is the short name of at least
one registered descriptor: if global initialisation succeeds (the flag is set once
`pthread_once` has returned) and the one-time and thread-local initialisation of the
first descriptor named `n` pass, then `mqtt_create` returns the pointer to the first
descriptor in registration order whose `sname` equals `n`.  Nothing is assumed about
`mqtt_globals.driver`, `db_globals.driver` or the other descriptors. -/
theorem mqtt_create_named_returns_first_match (s : State) (n : String) (tid : Int)
    (hglobal : (pthread_once s).mqtt_global_initialized = true)
    (hname : ∃ d ∈ s.drivers, d.sname = n)
    (hops : ∀ i d, first_match s.drivers n i d →
      init_passes s i d = true ∧ thread_init_passes s i d tid = true) :
    ∃ i d, first_match s.drivers n i d ∧ (mqtt_create s (some n) tid).ret = .drv i := by
  obtain ⟨i, d, hl, hfm⟩ := lookup_loop_found n s.drivers 0 hname
  obtain ⟨hip, htp⟩ := hops i d hfm
  refine ⟨i, d, hfm, ?_⟩
  have hsel : mqtt_select (pthread_once s) (some n) = (pthread_once s, .found i d) := by
    rw [mqtt_select_named, pthread_once_drivers, hl]
    simp
  apply mqtt_create_of_found_passes s (some n) tid _ i d hglobal hsel
  · rw [init_passes_congr s _ i d (pthread_once_init_calls s i)]; exact hip
  · rw [thread_init_passes_congr s _ i d tid (pthread_once_thread_init_calls s i)]; exact htp

/-- Witness of C1: three descriptors, the name `beta` registered twice, both
configuration records naming other drivers. -/
theorem mqtt_create_named_returns_first_match_witness :
    ∃ i d, first_match
        (fresh_state [stub_driver "alpha", stub_driver "beta", stub_driver "beta"]
          (some "alpha") (some "mysql")).drivers "beta" i d ∧
      (mqtt_create
        (fresh_state [stub_driver "alpha", stub_driver "beta", stub_driver "beta"]
          (some "alpha") (some "mysql")) (some "beta") 7).ret = .drv i :=
  mqtt_create_named_returns_first_match
    (fresh_state [stub_driver "alpha", stub_driver "beta", stub_driver "beta"]
      (some "alpha") (some "mysql")) "beta" 7
    (by decide)
    ⟨stub_driver "beta", by simp [fresh_state], rfl⟩
    (by
      intro i d h
      have hm : d ∈ [stub_driver "alpha", stub_driver "beta", stub_driver "beta"] :=
        List.getElem?_mem h.1
      simp only [List.mem_cons, List.mem_singleton, List.not_mem_nil, or_false] at hm
      rcases hm with rfl | rfl | rfl <;>
        simp [init_passes, thread_init_passes, stub_driver, stub_driver_with])

/-! ## Selection without a name -/

/-- The structural test of `mqtt_create` on the first node, `next(first) == prev(first)`,
holds exactly when the registry has one descriptor. -/
theorem only_driver_test (n : Nat) (hn : 0 < n) :
    SB_LIST_ITEM_NEXT n (.item 0) = SB_LIST_ITEM_PREV n (.item 0) ↔ n = 1 := by
  simp only [SB_LIST_ITEM_NEXT, SB_LIST_ITEM_PREV, if_true]
  constructor
  · intro h
    by_cases h1 : 0 + 1 < n
    · simp [h1] at h
    · omega
  · intro h
    subst h
    simp

theorem mqtt_select_default_single (s : State) (d : mqtt_driver_t)
    (hreg : s.drivers = [d]) (hdb : s.db_globals_driver = none) :
    mqtt_select s none =
      (log_text s .LOG_INFO "No MQTT drivers specified, using %s" [some d.sname],
        .found 0 d) := by
  simp [mqtt_select, hdb, hreg, SB_LIST_ENTRY, SB_LIST_ITEM_NEXT, SB_LIST_ITEM_PREV]

theorem mqtt_select_default_multiple (s : State) (hreg : 2 ≤ s.drivers.length)
    (hdb : s.db_globals_driver = none) :
    mqtt_select s none =
      (log_text s .LOG_FATAL
        "Multiple MQTT drivers are available. Use --mqtt-driver=name to specify which one to use"
        [], .err) := by
  match hds : s.drivers, hreg with
  | a :: b :: rest, _ =>
    simp [mqtt_select, hdb, hds, SB_LIST_ENTRY, SB_LIST_ITEM_NEXT, SB_LIST_ITEM_PREV]

theorem mqtt_select_preselected (s : State) (n : String)
    (hdb : s.db_globals_driver ≠ none) (hsel : s.mqtt_globals.driver = some n) :
    mqtt_select s none = mqtt_select s (some n) := by
  simp [mqtt_select, hdb, hsel]

/-- The selection part only logs: it changes no variable and calls no driver. -/
theorem mqtt_select_state (s : State) (name : Option String) :
    ∃ logs, (mqtt_select s name).1 = { s with trace := s.trace ++ logs } ∧
      ∀ e ∈ logs, ∃ l f a, e = Event.log_text l f a := by
  unfold mqtt_select
  split
  · split
    · exact ⟨[], by simp, by simp⟩
    · split
      · exact ⟨[_], rfl, by simp⟩
      · exact ⟨[_], rfl, by simp⟩
  · simp only []
    split
    · exact ⟨[], by simp, by simp⟩
    · exact ⟨[], by simp, by simp⟩
    · exact ⟨[_], rfl, by simp⟩

theorem log_events_layer (logs : List Event)
    (h : ∀ e ∈ logs, ∃ l f a, e = Event.log_text l f a) :
    ∀ e ∈ logs, e.is_layer_call = true := by
  intro e he
  obtain ⟨l, f, a, rfl⟩ := h e he
  rfl

theorem mqtt_select_drivers (s : State) (name : Option String) :
    (mqtt_select s name).1.drivers = s.drivers := by
  obtain ⟨logs, h, _⟩ := mqtt_select_state s name
  rw [h]

theorem lookup_loop_sound (name : Option String) (ds : List mqtt_driver_t) (k i : Nat)
    (d : mqtt_driver_t) (h : lookup_loop name ds k = .found i d) :
    k ≤ i ∧ ds[i - k]? = some d := by
  induction ds generalizing k with
  | nil => simp [lookup_loop] at h
  | cons a ds ih =>
    cases name with
    | none => simp [lookup_loop] at h
    | some n =>
      by_cases ha : a.sname = n
      · simp [lookup_loop, ha] at h
        obtain ⟨rfl, rfl⟩ := h
        simp
      · simp [lookup_loop, ha] at h
        obtain ⟨hk, hg⟩ := ih (k + 1) h
        refine ⟨by omega, ?_⟩
        have : i - k = (i - (k + 1)) + 1 := by omega
        rw [this]
        simpa using hg

/-- The chosen pointer points into the registry, at the chosen descriptor. -/
theorem mqtt_select_found (s : State) (name : Option String) (i : Nat) (d : mqtt_driver_t)
    (h : (mqtt_select s name).2 = .found i d) : s.drivers[i]? = some d := by
  unfold mqtt_select at h
  split at h
  · split at h
    · simp at h
    · rename_i j drv hent
      split at h
      · simp only [mqtt_selection.found.injEq] at h
        obtain ⟨rfl, rfl⟩ := h
        cases hn : SB_LIST_ITEM_NEXT s.drivers.length .head with
        | head => simp [hn, SB_LIST_ENTRY] at hent
        | item k =>
          simp only [hn, SB_LIST_ENTRY, Option.map_eq_some'] at hent
          obtain ⟨a, ha, hp⟩ := hent
          simp only [Prod.mk.injEq] at hp
          obtain ⟨rfl, rfl⟩ := hp
          exact ha
      · simp at h
  · simp only [] at h
    split at h
    · simp at h
    · rename_i j drv hl
      simp only [mqtt_selection.found.injEq] at h
      obtain ⟨rfl, rfl⟩ := h
      simpa using (lookup_loop_sound _ _ 0 _ _ hl).2
    · simp at h

/-! ## Outcomes of `mqtt_create` by exit path -/

theorem mqtt_create_of_uninitialized (s : State) (name : Option String) (tid : Int)
    (hg : (pthread_once s).mqtt_global_initialized = false) :
    mqtt_create s name tid = ⟨pthread_once s, .NULL⟩ := by
  simp [mqtt_create, hg]

theorem mqtt_create_of_err (s : State) (name : Option String) (tid : Int)
    (hg : (pthread_once s).mqtt_global_initialized = true)
    (hsel : (mqtt_select (pthread_once s) name).2 = .err) :
    mqtt_create s name tid = ⟨(mqtt_select (pthread_once s) name).1, .NULL⟩ := by
  rcases h : mqtt_select (pthread_once s) name with ⟨s2, r⟩
  rw [h] at hsel
  simp only at hsel
  subst hsel
  simp [mqtt_create, hg, h]

theorem mqtt_create_of_fault (s : State) (name : Option String) (tid : Int) (f : mqtt_fault)
    (hg : (pthread_once s).mqtt_global_initialized = true)
    (hsel : (mqtt_select (pthread_once s) name).2 = .fault f) :
    mqtt_create s name tid = ⟨(mqtt_select (pthread_once s) name).1, .undefined f⟩ := by
  rcases h : mqtt_select (pthread_once s) name with ⟨s2, r⟩
  rw [h] at hsel
  simp only at hsel
  subst hsel
  simp [mqtt_create, hg, h]

/-- A call that ends before a descriptor is chosen changes no descriptor and calls no
driver operation. -/
theorem mqtt_create_no_driver_chosen_layer (s : State) (name : Option String) (tid : Int)
    (h : (pthread_once s).mqtt_global_initialized = false ∨
      (mqtt_select (pthread_once s) name).2 = .err) :
    (mqtt_create s name tid).ret = .NULL ∧
      (mqtt_create s name tid).state.drivers = s.drivers ∧
      ∃ evs, (mqtt_create s name tid).state.trace = s.trace ++ evs ∧
        ∀ e ∈ evs, e.is_layer_call = true := by
  obtain ⟨evs1, htr1, hq1⟩ := pthread_once_trace s
  by_cases hg : (pthread_once s).mqtt_global_initialized = false
  · rw [mqtt_create_of_uninitialized s name tid hg]
    exact ⟨rfl, pthread_once_drivers s, evs1, htr1, hq1⟩
  · simp only [Bool.not_eq_false] at hg
    have hsel : (mqtt_select (pthread_once s) name).2 = .err := by
      rcases h with h | h
      · rw [hg] at h; cases h
      · exact h
    rw [mqtt_create_of_err s name tid hg hsel]
    obtain ⟨logs, hst, hlogs⟩ := mqtt_select_state (pthread_once s) name
    refine ⟨rfl, ?_, evs1 ++ logs, ?_, ?_⟩
    · rw [mqtt_select_drivers, pthread_once_drivers]
    · rw [hst]
      simp [htr1]
    · intro e he
      rcases List.mem_append.mp he with he | he
      · exact hq1 e he
      · exact log_events_layer logs hlogs e he

theorem mqtt_create_no_driver_chosen (s : State) (name : Option String) (tid : Int)
    (h : (pthread_once s).mqtt_global_initialized = false ∨
      (mqtt_select (pthread_once s) name).2 = .err) :
    (mqtt_create s name tid).ret = .NULL ∧
      (mqtt_create s name tid).state.drivers = s.drivers ∧
      ∃ evs, (mqtt_create s name tid).state.trace = s.trace ++ evs ∧
        ∀ e ∈ evs, e.is_driver_op = false := by
  obtain ⟨h1, h2, evs, h3, h4⟩ := mqtt_create_no_driver_chosen_layer s name tid h
  exact ⟨h1, h2, evs, h3, layer_call_quiet evs h4⟩

theorem drop_length_append (tr evs : List Event) : (tr ++ evs).drop tr.length = evs := by
  simp

theorem mqtt_create_resolved (s : State) (name : Option String) (tid : Int) (i : Nat)
    (d : mqtt_driver_t) (h : resolves_to s name i d) :
    mqtt_create s name tid = mqtt_create_init (mqtt_select (pthread_once s) name).1 i d tid := by
  obtain ⟨hg, hsel⟩ := h
  rcases hs : mqtt_select (pthread_once s) name with ⟨s2, r⟩
  rw [hs] at hsel
  simp only at hsel
  subst hsel
  simp [mqtt_create, hg, hs]

/-- The state in which the chosen driver is initialised differs from the state at entry
by layer calls only, and the chosen pointer points at the chosen descriptor. -/
theorem resolves_to_state (s : State) (name : Option String) (i : Nat) (d : mqtt_driver_t)
    (h : resolves_to s name i d) :
    (mqtt_select (pthread_once s) name).1.drivers = s.drivers ∧
      s.drivers[i]? = some d ∧
      ∃ evs, (mqtt_select (pthread_once s) name).1.trace = s.trace ++ evs ∧
        ∀ e ∈ evs, e.is_layer_call = true := by
  obtain ⟨evs1, htr1, hq1⟩ := pthread_once_trace s
  obtain ⟨logs, hst, hlogs⟩ := mqtt_select_state (pthread_once s) name
  refine ⟨?_, ?_, evs1 ++ logs, ?_, ?_⟩
  · rw [mqtt_select_drivers, pthread_once_drivers]
  · rw [← pthread_once_drivers s]
    exact mqtt_select_found _ name i d h.2
  · rw [hst]
    simp [htr1]
  · intro e he
    rcases List.mem_append.mp he with he | he
    · exact hq1 e he
    · exact log_events_layer logs hlogs e he

/-- Every call either ends before a descriptor is chosen, then it changes no descriptor,
makes layer calls only and returns no handle, or it chooses a descriptor. -/
theorem mqtt_create_cases (s : State) (name : Option String) (tid : Int) :
    ((mqtt_create s name tid).state.drivers = s.drivers ∧
      (∃ evs, (mqtt_create s name tid).state.trace = s.trace ++ evs ∧
        ∀ e ∈ evs, e.is_layer_call = true) ∧
      ∀ i, (mqtt_create s name tid).ret ≠ .drv i) ∨
    ∃ i d, resolves_to s name i d := by
  by_cases hg : (pthread_once s).mqtt_global_initialized = false
  · left
    obtain ⟨h1, h2, h3⟩ := mqtt_create_no_driver_chosen_layer s name tid (Or.inl hg)
    exact ⟨h2, h3, by rw [h1]; simp⟩
  · simp only [Bool.not_eq_false] at hg
    cases hsel : (mqtt_select (pthread_once s) name).2 with
    | found i d => exact Or.inr ⟨i, d, hg, hsel⟩
    | err =>
      left
      obtain ⟨h1, h2, h3⟩ := mqtt_create_no_driver_chosen_layer s name tid (Or.inr hsel)
      exact ⟨h2, h3, by rw [h1]; simp⟩
    | fault f =>
      left
      rw [mqtt_create_of_fault s name tid f hg hsel]
      obtain ⟨evs1, htr1, hq1⟩ := pthread_once_trace s
      obtain ⟨logs, hst, hlogs⟩ := mqtt_select_state (pthread_once s) name
      refine ⟨?_, ⟨evs1 ++ logs, ?_, ?_⟩, by simp⟩
      · rw [mqtt_select_drivers, pthread_once_drivers]
      · rw [hst]
        simp [htr1]
      · intro e he
        rcases List.mem_append.mp he with he | he
        · exact hq1 e he
        · exact log_events_layer logs hlogs e he

/-- The exit paths of lines 208 to 227: `init` fails; or the one-time section passes
(nothing to do, or `init` returns 0) and then `thread_init` is absent, returns 0, or
fails. -/
theorem mqtt_create_init_cases (s2 : State) (i : Nat) (d : mqtt_driver_t) (tid : Int) :
    (d.initialized = false ∧ d.ops.init (init_calls i s2.trace) ≠ 0 ∧
      mqtt_create_init s2 i d tid =
        ⟨pthread_mutex_unlock
          (record (pthread_mutex_lock s2 i) (.init i (d.ops.init (init_calls i s2.trace)))) i,
          .NULL⟩) ∨
    ∃ s3, init_passes s2 i d = true ∧
      ((d.initialized = true ∧ s3 = pthread_mutex_unlock (pthread_mutex_lock s2 i) i) ∨
        (d.initialized = false ∧ d.ops.init (init_calls i s2.trace) = 0 ∧
          s3 = pthread_mutex_unlock
            (modify_driver (record (pthread_mutex_lock s2 i) (.init i 0)) i
              (fun d => { d with initialized := true })) i)) ∧
      ((d.ops.thread_init = none ∧ mqtt_create_init s2 i d tid = ⟨s3, .drv i⟩) ∨
        (∃ f, d.ops.thread_init = some f ∧ f tid (thread_init_calls i s2.trace) = 0 ∧
          mqtt_create_init s2 i d tid = ⟨record s3 (.thread_init i tid 0), .drv i⟩) ∨
        (∃ f, d.ops.thread_init = some f ∧ f tid (thread_init_calls i s2.trace) ≠ 0 ∧
          mqtt_create_init s2 i d tid =
            ⟨log_text
              (record s3 (.thread_init i tid (f tid (thread_init_calls i s2.trace))))
              .LOG_FATAL "thread-local driver initialization failed." [], .NULL⟩)) := by
  have hcount := mqtt_init_driver_thread_init_calls s2 i i d
  rw [mqtt_create_init_eq]
  cases hinit : d.initialized
  · by_cases hrc : d.ops.init (init_calls i s2.trace) = 0
    · right
      rw [mqtt_init_driver_done s2 i d hinit hrc] at hcount ⊢
      refine ⟨_, by simp [init_passes, hrc], Or.inr ⟨rfl, hrc, rfl⟩, ?_⟩
      simp only [Bool.false_eq_true, if_false]
      cases ht : d.ops.thread_init with
      | none => exact Or.inl ⟨rfl, mqtt_thread_init_absent _ i d tid ht⟩
      | some f =>
        right
        by_cases hrc2 : f tid (thread_init_calls i s2.trace) = 0
        · left
          refine ⟨f, rfl, hrc2, ?_⟩
          rw [mqtt_thread_init_done _ i d tid f ht (by rw [hcount]; exact hrc2)]
        · right
          refine ⟨f, rfl, hrc2, ?_⟩
          rw [mqtt_thread_init_failed _ i d tid f ht (by rw [hcount]; exact hrc2), hcount]
    · left
      rw [mqtt_init_driver_failed s2 i d hinit hrc]
      exact ⟨rfl, hrc, by simp⟩
  · right
    rw [mqtt_init_driver_already s2 i d hinit] at hcount ⊢
    refine ⟨_, by simp [init_passes, hinit], Or.inl ⟨rfl, rfl⟩, ?_⟩
    simp only [Bool.false_eq_true, if_false]
    cases ht : d.ops.thread_init with
    | none => exact Or.inl ⟨rfl, mqtt_thread_init_absent _ i d tid ht⟩
    | some f =>
      right
      by_cases hrc2 : f tid (thread_init_calls i s2.trace) = 0
      · left
        refine ⟨f, rfl, hrc2, ?_⟩
        rw [mqtt_thread_init_done _ i d tid f ht (by rw [hcount]; exact hrc2)]
      · right
        refine ⟨f, rfl, hrc2, ?_⟩
        rw [mqtt_thread_init_failed _ i d tid f ht (by rw [hcount]; exact hrc2), hcount]

/-! ## C2, C3, C4: selection without a name -/

/-- With one registered descriptor, no name, and no driver in `db_globals`, the call
returns the descriptor, whatever `mqtt_globals.driver` holds. -/
theorem mqtt_create_single_default (s : State) (d : mqtt_driver_t) (tid : Int)
    (hreg : s.drivers = [d]) (hdb : s.db_globals_driver = none)
    (hglobal : (pthread_once s).mqtt_global_initialized = true)
    (hip : init_passes s 0 d = true) (htp : thread_init_passes s 0 d tid = true) :
    (mqtt_create s none tid).ret = .drv 0 := by
  have hreg1 : (pthread_once s).drivers = [d] := by rw [pthread_once_drivers, hreg]
  have hdb1 : (pthread_once s).db_globals_driver = none := by
    rw [pthread_once_db_globals_driver, hdb]
  have hsel := mqtt_select_default_single (pthread_once s) d hreg1 hdb1
  apply mqtt_create_of_found_passes s none tid _ 0 d hglobal hsel
  · rw [init_passes_congr s _ 0 d ?_]
    · exact hip
    · simp only [log_text, record_trace, init_calls_snoc, Event.is_init]
      simpa using pthread_once_init_calls s 0
  · rw [thread_init_passes_congr s _ 0 d tid ?_]
    · exact htp
    · simp only [log_text, record_trace, thread_init_calls_snoc, Event.is_thread_init]
      simpa using pthread_once_thread_init_calls s 0

/-- With two or more registered descriptors, no name, and no driver in `db_globals`, the
call returns `NULL`, changes no descriptor and calls no driver operation. -/
theorem mqtt_create_ambiguous_default (s : State) (tid : Int)
    (hreg : 2 ≤ s.drivers.length) (hdb : s.db_globals_driver = none) :
    (mqtt_create s none tid).ret = .NULL ∧
      (mqtt_create s none tid).state.drivers = s.drivers ∧
      ∃ evs, (mqtt_create s none tid).state.trace = s.trace ++ evs ∧
        ∀ e ∈ evs, e.is_driver_op = false := by
  apply mqtt_create_no_driver_chosen
  right
  rw [mqtt_select_default_multiple]
  · rw [pthread_once_drivers]; exact hreg
  · rw [pthread_once_db_globals_driver]; exact hdb

/-- With a driver set in `db_globals` and `mqtt_globals.driver` set to `n` once global
initialisation has run, a call without a name is the call with name `n`. -/
theorem mqtt_create_preselected (s : State) (n : String) (tid : Int)
    (hdb : s.db_globals_driver ≠ none)
    (hsel : (pthread_once s).mqtt_globals.driver = some n) :
    mqtt_create s none tid = mqtt_create s (some n) tid := by
  have hdb1 : (pthread_once s).db_globals_driver ≠ none := by
    rw [pthread_once_db_globals_driver]; exact hdb
  simp only [mqtt_create, mqtt_select_preselected (pthread_once s) n hdb1 hsel]

/-- C2, evaluated where it fails: one descriptor is registered, no name is passed,
`mqtt_globals.driver` is null after global initialisation, global initialisation and the
driver's `init` succeed and the driver has no `thread_init`, the structural test
`next(first) == prev(first)` holds; but `db_globals.driver` is set, so the selection skips
the single-driver default, takes the null `mqtt_globals.driver` as the name and passes it
to `strcmp`: the call does not return the descriptor. -/
theorem mqtt_create_single_default_db_driver_set :
    (fresh_state [stub_driver "alpha"] none (some "mysql")).drivers.length = 1 ∧
    (pthread_once (fresh_state [stub_driver "alpha"] none (some "mysql"))).mqtt_globals.driver
      = none ∧
    (pthread_once
      (fresh_state [stub_driver "alpha"] none (some "mysql"))).mqtt_global_initialized = true ∧
    init_passes (fresh_state [stub_driver "alpha"] none (some "mysql")) 0
      (stub_driver "alpha") = true ∧
    thread_init_passes (fresh_state [stub_driver "alpha"] none (some "mysql")) 0
      (stub_driver "alpha") 7 = true ∧
    SB_LIST_ITEM_NEXT 1 (.item 0) = SB_LIST_ITEM_PREV 1 (.item 0) ∧
    (mqtt_create (fresh_state [stub_driver "alpha"] none (some "mysql")) none 7).ret
      = .undefined .strcmp_null_name ∧
    (mqtt_create (fresh_state [stub_driver "alpha"] none (some "mysql")) none 7).ret
      ≠ .drv 0 := by
  decide

/-- C3, evaluated where it fails: two descriptors are registered, no name is passed and
`mqtt_globals.driver` is null after global initialisation; but `db_globals.driver` is
set, so the selection skips the ambiguity check, takes the null `mqtt_globals.driver` as
the name and passes it to `strcmp`: the call does not return `NULL`, it has no defined
result. -/
theorem mqtt_create_ambiguous_default_db_driver_set :
    2 ≤ (fresh_state [stub_driver "alpha", stub_driver "beta"] none
      (some "mysql")).drivers.length ∧
    (pthread_once (fresh_state [stub_driver "alpha", stub_driver "beta"] none
      (some "mysql"))).mqtt_globals.driver = none ∧
    (mqtt_create (fresh_state [stub_driver "alpha", stub_driver "beta"] none
      (some "mysql")) none 7).ret = .undefined .strcmp_null_name ∧
    (mqtt_create (fresh_state [stub_driver "alpha", stub_driver "beta"] none
      (some "mysql")) none 7).ret ≠ .NULL := by
  decide

/-- C4, evaluated where it fails: `mqtt_globals.driver` is set to the registered name
`beta` by global initialisation and `db_globals.driver` is null.  The call with the name
`beta` returns the second descriptor; the call without a name takes the branch for a
missing preselection and returns `NULL` (two descriptors), or returns the only descriptor
although the preselected name is another one (one descriptor). -/
theorem mqtt_create_preselected_db_driver_null :
    (pthread_once (fresh_state [stub_driver "alpha", stub_driver "beta"] (some "beta")
      none)).mqtt_globals.driver = some "beta" ∧
    (mqtt_create (fresh_state [stub_driver "alpha", stub_driver "beta"] (some "beta") none)
      (some "beta") 7).ret = .drv 1 ∧
    (mqtt_create (fresh_state [stub_driver "alpha", stub_driver "beta"] (some "beta") none)
      none 7).ret = .NULL ∧
    (mqtt_create (fresh_state [stub_driver "alpha"] (some "beta") none)
      (some "beta") 7).ret = .NULL ∧
    (mqtt_create (fresh_state [stub_driver "alpha"] (some "beta") none)
      none 7).ret = .drv 0 := by
  decide

/-! ## C5: unknown name -/

/-- C5. For every state and every non-null name that is the short name of no registered
descriptor, `mqtt_create` returns `NULL`, leaves the registry as it was (the same
descriptors in the same order, each with the same fields, `initialized` included) and
calls no driver operation: the calls it adds to the trace hold no `init` and no
`thread_init`. -/
theorem mqtt_create_unknown_name (s : State) (n : String) (tid : Int)
    (hname : ∀ d ∈ s.drivers, d.sname ≠ n) :
    (mqtt_create s (some n) tid).ret = .NULL ∧
      (mqtt_create s (some n) tid).state.drivers = s.drivers ∧
      ∃ evs, (mqtt_create s (some n) tid).state.trace = s.trace ++ evs ∧
        ∀ e ∈ evs, e.is_driver_op = false := by
  apply mqtt_create_no_driver_chosen
  right
  rw [mqtt_select_named, pthread_once_drivers, lookup_loop_not_found n s.drivers 0 hname]

/-- Witness of C5: the name `nope` with the registry `alpha`, `beta`. -/
theorem mqtt_create_unknown_name_witness :
    (mqtt_create (fresh_state [stub_driver "alpha", stub_driver "beta"] none none)
        (some "nope") 7).ret = .NULL ∧
      (mqtt_create (fresh_state [stub_driver "alpha", stub_driver "beta"] none none)
        (some "nope") 7).state.drivers
        = (fresh_state [stub_driver "alpha", stub_driver "beta"] none none).drivers ∧
      ∃ evs, (mqtt_create (fresh_state [stub_driver "alpha", stub_driver "beta"] none none)
          (some "nope") 7).state.trace
          = (fresh_state [stub_driver "alpha", stub_driver "beta"] none none).trace ++ evs ∧
        ∀ e ∈ evs, e.is_driver_op = false :=
  mqtt_create_unknown_name
    (fresh_state [stub_driver "alpha", stub_driver "beta"] none none) "nope" 7
    (by
      intro d hd
      simp only [fresh_state, List.mem_cons, List.mem_singleton, List.not_mem_nil,
        or_false] at hd
      rcases hd with rfl | rfl <;> decide)

/-! ## C6: failed global initialisation -/

theorem SB_LIST_IS_EMPTY_iff (ds : List mqtt_driver_t) : SB_LIST_IS_EMPTY ds = true ↔ ds = [] := by
  cases ds <;> simp [SB_LIST_IS_EMPTY, SB_LIST_ITEM_NEXT]

/-- A first call that runs `mqtt_init` with an empty registry or a failing argument parse
sets the latch and leaves the global flag clear. -/
theorem pthread_once_failed (s : State)
    (honce : s.mqtt_global_once = false) (hflag : s.mqtt_global_initialized = false)
    (hfail : s.drivers = [] ∨ (s.parse_arguments_stub s.mqtt_globals).1 ≠ 0) :
    (pthread_once s).mqtt_global_once = true ∧
      (pthread_once s).mqtt_global_initialized = false := by
  simp only [pthread_once, honce, Bool.false_eq_true, if_false, true_and]
  by_cases he : SB_LIST_IS_EMPTY s.drivers = true
  · rw [mqtt_init_empty s he]
    exact hflag
  · simp only [Bool.not_eq_true] at he
    have hp : (mqtt_parse_arguments s).2 ≠ 0 := by
      rcases hfail with h | h
      · rw [(SB_LIST_IS_EMPTY_iff s.drivers).mpr h] at he
        cases he
      · exact h
    rw [mqtt_init_parse_failed s he hp]
    exact hflag

/-- Once the latch is set and the global flag is clear, a call is the identity on the
state and returns `NULL`. -/
theorem mqtt_create_latched_failure (s : State) (name : Option String) (tid : Int)
    (honce : s.mqtt_global_once = true) (hflag : s.mqtt_global_initialized = false) :
    mqtt_create s name tid = ⟨s, .NULL⟩ := by
  have h1 : pthread_once s = s := by simp [pthread_once, honce]
  simp [mqtt_create, h1, hflag]

/-- C6. Let the first `mqtt_create` call run `mqtt_init` (latch not set, flag clear) with
an empty registry or with a failing `mqtt_parse_arguments`.  Then that call returns
`NULL`, and in every later state, that is every state with the latch and the flag as
this call left them, whatever its registry, configuration and trace, every
`mqtt_create` call with every name from every thread returns `NULL` and leaves the state
untouched: the trace gets no new entry, so neither `mqtt_parse_arguments` nor
`mqtt_reset_stats` nor any driver operation is invoked, and the latch and the flag stay
as they are for the calls after it. -/
theorem mqtt_create_global_init_failure_permanent (s : State) (name0 : Option String)
    (tid0 : Int)
    (honce : s.mqtt_global_once = false) (hflag : s.mqtt_global_initialized = false)
    (hfail : s.drivers = [] ∨ (s.parse_arguments_stub s.mqtt_globals).1 ≠ 0) :
    (mqtt_create s name0 tid0).ret = .NULL ∧
      ∀ later : State,
        later.mqtt_global_once = (mqtt_create s name0 tid0).state.mqtt_global_once →
        later.mqtt_global_initialized
          = (mqtt_create s name0 tid0).state.mqtt_global_initialized →
        ∀ (name : Option String) (tid : Int),
          mqtt_create later name tid = ⟨later, .NULL⟩ ∧
            mqtt_create_events later name tid = [] := by
  obtain ⟨h1, h2⟩ := pthread_once_failed s honce hflag hfail
  rw [mqtt_create_of_uninitialized s name0 tid0 h2]
  refine ⟨rfl, ?_⟩
  intro later hl1 hl2 name tid
  simp only [h1, h2] at hl1 hl2
  have h := mqtt_create_latched_failure later name tid hl1 hl2
  refine ⟨h, ?_⟩
  simp [mqtt_create_events, h]

/-- Witness of C6: a first call with an empty registry. -/
theorem mqtt_create_global_init_failure_permanent_witness :
    (mqtt_create (fresh_state [] none none) (some "alpha") 7).ret = .NULL ∧
      ∀ later : State,
        later.mqtt_global_once
          = (mqtt_create (fresh_state [] none none) (some "alpha") 7).state.mqtt_global_once →
        later.mqtt_global_initialized
          = (mqtt_create (fresh_state [] none none)
              (some "alpha") 7).state.mqtt_global_initialized →
        ∀ (name : Option String) (tid : Int),
          mqtt_create later name tid = ⟨later, .NULL⟩ ∧
            mqtt_create_events later name tid = [] :=
  mqtt_create_global_init_failure_permanent (fresh_state [] none none) (some "alpha") 7
    rfl rfl (Or.inl rfl)

/-! ## C7: how often `init` runs -/

theorem init_ok_calls_le (i : Nat) (evs : List Event) : init_ok_calls i evs ≤ init_calls i evs := by
  unfold init_ok_calls init_calls
  apply List.countP_mono_left
  intro e _ he
  cases e <;> simp_all [Event.is_init_ok, Event.is_init]

theorem init_calls_split (i : Nat) (evs : List Event) :
    init_calls i evs = init_ok_calls i evs + init_failed_calls i evs := by
  induction evs with
  | nil => rfl
  | cons e evs ih =>
    simp only [init_calls, init_ok_calls, init_failed_calls, List.countP_cons] at ih ⊢
    rw [ih]
    cases e with
    | init j rc =>
      by_cases hj : j = i <;> by_cases hrc : rc = 0 <;>
        simp [Event.is_init, Event.is_init_ok, Event.is_init_failed, hj, hrc] <;> omega
    | _ => simp [Event.is_init, Event.is_init_ok, Event.is_init_failed]

theorem init_calls_layer (i : Nat) (evs : List Event) (h : ∀ e ∈ evs, e.is_layer_call = true) :
    init_calls i evs = 0 := by
  have := init_calls_append_quiet i [] evs (layer_call_quiet evs h)
  simpa [init_calls] using this

theorem initialized_at_congr (s s2 : State) (i : Nat) (h : s2.drivers = s.drivers) :
    initialized_at s2 i = initialized_at s i := by
  simp [initialized_at, h]

/-- One pass through lines 208 to 227 for the descriptor at position `i`, seen from the
descriptor at position `j`: `init` of `j` runs at most once, not at all when `j` is
initialised, and `j` is initialised after an `init` of `j` that returned 0; an
initialised descriptor stays initialised. -/
theorem mqtt_create_init_step (s2 : State) (i : Nat) (d : mqtt_driver_t) (tid : Int) (j : Nat)
    (hget : s2.drivers[i]? = some d) :
    ∃ devs, (mqtt_create_init s2 i d tid).state.trace = s2.trace ++ devs ∧
      init_calls j devs ≤ 1 ∧
      (initialized_at s2 j = true →
        init_calls j devs = 0 ∧ initialized_at (mqtt_create_init s2 i d tid).state j = true) ∧
      (0 < init_ok_calls j devs →
        initialized_at (mqtt_create_init s2 i d tid).state j = true) := by
  have hinit_j : ∀ hji : j = i, initialized_at s2 j = d.initialized := by
    intro hji
    subst hji
    simp [initialized_at, hget]
  rcases mqtt_create_init_cases s2 i d tid with
    ⟨hi, hrc, heq⟩ | ⟨s3, -, (⟨hi, hs3⟩ | ⟨hi, hrc, hs3⟩), hthr⟩
  · rw [heq]
    refine ⟨[.mutex_lock i, .init i (d.ops.init (init_calls i s2.trace)), .mutex_unlock i],
      by simp, ?_, ?_, ?_⟩
    · by_cases hji : i = j <;> simp [init_calls, Event.is_init, hji]
    · intro hj
      by_cases hji : j = i
      · rw [hinit_j hji, hi] at hj
        cases hj
      · have hij : ¬ i = j := fun h => hji h.symm
        simp [init_calls, Event.is_init, hij]
        simpa [initialized_at, update_at_getElem?, hji] using hj
    · intro hpos
      by_cases hji : i = j
      · subst hji
        simp [init_ok_calls, Event.is_init_ok, hrc] at hpos
      · simp [init_ok_calls, Event.is_init_ok, hji] at hpos
  · have hstep : ∃ tevs, (mqtt_create_init s2 i d tid).state.trace = s3.trace ++ tevs ∧
        (mqtt_create_init s2 i d tid).state.drivers = s3.drivers ∧
        init_calls j tevs = 0 := by
      rcases hthr with ⟨-, heq⟩ | ⟨f, -, -, heq⟩ | ⟨f, -, -, heq⟩
      · rw [heq]; exact ⟨[], by simp, rfl, rfl⟩
      · rw [heq]; exact ⟨[.thread_init i tid 0], rfl, rfl, by simp [init_calls, Event.is_init]⟩
      · rw [heq]
        exact ⟨[.thread_init i tid (f tid (thread_init_calls i s2.trace)),
            .log_text .LOG_FATAL "thread-local driver initialization failed." []],
          by simp [log_text], rfl, by simp [init_calls, Event.is_init]⟩
    obtain ⟨tevs, htr, hdr, hz⟩ := hstep
    subst hs3
    refine ⟨[.mutex_lock i, .mutex_unlock i] ++ tevs, by simp [htr], ?_, ?_, ?_⟩
    · rw [init_calls_append, hz]
      simp [init_calls, Event.is_init]
    · intro hj
      rw [init_calls_append, hz]
      refine ⟨by simp [init_calls, Event.is_init], ?_⟩
      simp only [initialized_at, hdr]
      by_cases hji : j = i
      · subst hji
        simp [update_at_getElem?, hget, hi]
      · simpa [initialized_at, update_at_getElem?, hji] using hj
    · intro hpos
      have hc : init_calls j ([.mutex_lock i, .mutex_unlock i] ++ tevs) = 0 := by
        rw [init_calls_append, hz]
        simp [init_calls, Event.is_init]
      have := init_ok_calls_le j ([.mutex_lock i, .mutex_unlock i] ++ tevs)
      omega
  · have hstep : ∃ tevs, (mqtt_create_init s2 i d tid).state.trace = s3.trace ++ tevs ∧
        (mqtt_create_init s2 i d tid).state.drivers = s3.drivers ∧
        init_calls j tevs = 0 := by
      rcases hthr with ⟨-, heq⟩ | ⟨f, -, -, heq⟩ | ⟨f, -, -, heq⟩
      · rw [heq]; exact ⟨[], by simp, rfl, rfl⟩
      · rw [heq]; exact ⟨[.thread_init i tid 0], rfl, rfl, by simp [init_calls, Event.is_init]⟩
      · rw [heq]
        exact ⟨[.thread_init i tid (f tid (thread_init_calls i s2.trace)),
            .log_text .LOG_FATAL "thread-local driver initialization failed." []],
          by simp [log_text], rfl, by simp [init_calls, Event.is_init]⟩
    obtain ⟨tevs, htr, hdr, hz⟩ := hstep
    subst hs3
    refine ⟨[.mutex_lock i, .init i 0, .mutex_unlock i] ++ tevs, by simp [htr], ?_, ?_, ?_⟩
    · rw [init_calls_append, hz]
      by_cases hji : i = j <;> simp [init_calls, Event.is_init, hji]
    · intro hj
      by_cases hji : j = i
      · rw [hinit_j hji, hi] at hj
        cases hj
      · have hij : ¬ i = j := fun h => hji h.symm
        rw [init_calls_append, hz]
        refine ⟨by simp [init_calls, Event.is_init, hij], ?_⟩
        simp only [initialized_at, hdr]
        simpa [initialized_at, update_at_getElem?, hji] using hj
    · intro hpos
      by_cases hji : j = i
      · subst hji
        simp only [initialized_at, hdr]
        simp [update_at_getElem?, hget]
      · exfalso
        have hij : ¬ i = j := fun h => hji h.symm
        have hc : init_calls j ([.mutex_lock i, .init i 0, .mutex_unlock i] ++ tevs) = 0 := by
          rw [init_calls_append, hz]
          simp [init_calls, Event.is_init, hij]
        have := init_ok_calls_le j ([.mutex_lock i, .init i 0, .mutex_unlock i] ++ tevs)
        omega

/-- One call of `mqtt_create`, seen from the descriptor at position `j`. -/
theorem mqtt_create_step (s : State) (name : Option String) (tid : Int) (j : Nat) :
    ∃ evs, (mqtt_create s name tid).state.trace = s.trace ++ evs ∧
      init_calls j evs ≤ 1 ∧
      (initialized_at s j = true →
        init_calls j evs = 0 ∧ initialized_at (mqtt_create s name tid).state j = true) ∧
      (0 < init_ok_calls j evs → initialized_at (mqtt_create s name tid).state j = true) := by
  rcases mqtt_create_cases s name tid with ⟨hdr, ⟨evs, htr, hl⟩, -⟩ | ⟨i, d, hres⟩
  · have hz := init_calls_layer j evs hl
    have hle := init_ok_calls_le j evs
    refine ⟨evs, htr, by omega, ?_, ?_⟩
    · intro hj
      exact ⟨hz, by rw [initialized_at_congr s _ j hdr]; exact hj⟩
    · intro hpos
      omega
  · obtain ⟨hdr, hget, evs0, htr0, hl0⟩ := resolves_to_state s name i d hres
    rw [mqtt_create_resolved s name tid i d hres]
    obtain ⟨devs, htr, h1, h2, h3⟩ :=
      mqtt_create_init_step (mqtt_select (pthread_once s) name).1 i d tid j (by rw [hdr]; exact hget)
    have hz := init_calls_layer j evs0 hl0
    have hle := init_ok_calls_le j evs0
    have hok : init_ok_calls j (evs0 ++ devs) = init_ok_calls j evs0 + init_ok_calls j devs := by
      simp [init_ok_calls, List.countP_append]
    refine ⟨evs0 ++ devs, by rw [htr, htr0, List.append_assoc], ?_, ?_, ?_⟩
    · rw [init_calls_append, hz]; omega
    · intro hj
      rw [← initialized_at_congr s _ j hdr] at hj
      obtain ⟨ha, hb⟩ := h2 hj
      exact ⟨by rw [init_calls_append, hz, ha], hb⟩
    · intro hpos
      apply h3
      omega

/-- A sequence of calls, seen from the descriptor at position `j`: at most one `init` of
`j` returns 0, none runs when `j` is initialised at the start, and `j` is initialised at
the end when it was at the start or an `init` of `j` returned 0. -/
theorem mqtt_create_calls_step (s : State) (calls : List (Option String × Int)) (j : Nat) :
    ∃ evs, (mqtt_create_calls s calls).1.trace = s.trace ++ evs ∧
      init_ok_calls j evs ≤ 1 ∧
      (initialized_at s j = true →
        init_calls j evs = 0 ∧ initialized_at (mqtt_create_calls s calls).1 j = true) ∧
      (0 < init_ok_calls j evs → initialized_at (mqtt_create_calls s calls).1 j = true) := by
  induction calls generalizing s with
  | nil => exact ⟨[], by simp [mqtt_create_calls], by simp [init_ok_calls],
      fun h => ⟨rfl, h⟩, by simp [init_ok_calls]⟩
  | cons c rest ih =>
    obtain ⟨name, tid⟩ := c
    obtain ⟨evs1, htr1, h1, h2, h3⟩ := mqtt_create_step s name tid j
    have hle1 := init_ok_calls_le j evs1
    cases hret : (mqtt_create s name tid).ret with
    | undefined f =>
      simp only [mqtt_create_calls, hret]
      exact ⟨evs1, htr1, by omega, h2, h3⟩
    | NULL =>
      simp only [mqtt_create_calls, hret]
      obtain ⟨evs2, htr2, k1, k2, k3⟩ := ih (mqtt_create s name tid).state
      have hle2 := init_ok_calls_le j evs2
      have hok : init_ok_calls j (evs1 ++ evs2) = init_ok_calls j evs1 + init_ok_calls j evs2 := by
        simp [init_ok_calls, List.countP_append]
      refine ⟨evs1 ++ evs2, by rw [htr2, htr1, List.append_assoc], ?_, ?_, ?_⟩
      · rw [hok]
        by_cases hp : 0 < init_ok_calls j evs1
        · have := (k2 (h3 hp)).1
          omega
        · omega
      · intro hj
        obtain ⟨ha, hb⟩ := h2 hj
        obtain ⟨hc, hd⟩ := k2 hb
        exact ⟨by rw [init_calls_append, ha, hc], hd⟩
      · intro hpos
        rw [hok] at hpos
        by_cases hp : 0 < init_ok_calls j evs1
        · exact (k2 (h3 hp)).2
        · exact k3 (by omega)
    | drv i =>
      simp only [mqtt_create_calls, hret]
      obtain ⟨evs2, htr2, k1, k2, k3⟩ := ih (mqtt_create s name tid).state
      have hle2 := init_ok_calls_le j evs2
      have hok : init_ok_calls j (evs1 ++ evs2) = init_ok_calls j evs1 + init_ok_calls j evs2 := by
        simp [init_ok_calls, List.countP_append]
      refine ⟨evs1 ++ evs2, by rw [htr2, htr1, List.append_assoc], ?_, ?_, ?_⟩
      · rw [hok]
        by_cases hp : 0 < init_ok_calls j evs1
        · have := (k2 (h3 hp)).1
          omega
        · omega
      · intro hj
        obtain ⟨ha, hb⟩ := h2 hj
        obtain ⟨hc, hd⟩ := k2 hb
        exact ⟨by rw [init_calls_append, ha, hc], hd⟩
      · intro hpos
        rw [hok] at hpos
        by_cases hp : 0 < init_ok_calls j evs1
        · exact (k2 (h3 hp)).2
        · exact k3 (by omega)

theorem mqtt_create_calls_trace (s : State) (calls : List (Option String × Int)) :
    (mqtt_create_calls s calls).1.trace = s.trace ++ mqtt_create_calls_events s calls := by
  obtain ⟨evs, htr, -⟩ := mqtt_create_calls_step s calls 0
  rw [mqtt_create_calls_events, htr, drop_length_append]

/-- C7, as the code has it.  For every state, every finite sequence of `mqtt_create`
calls (each one atomic step) and every descriptor position `i`: over the whole sequence
at most one invocation of the descriptor's `ops.init` returns 0; none is made when the
descriptor is initialised at the start, and none is made by calls that follow an
invocation that returned 0; so the number of invocations is at most one more than the
number of invocations that returned non-zero, and at most one when none returned
non-zero. -/
theorem mqtt_create_calls_init_once_successful (s : State)
    (calls : List (Option String × Int)) (i : Nat) :
    init_ok_calls i (mqtt_create_calls_events s calls) ≤ 1 ∧
      (initialized_at s i = true → init_calls i (mqtt_create_calls_events s calls) = 0) ∧
      (∀ later : List (Option String × Int),
        0 < init_ok_calls i (mqtt_create_calls_events s calls) →
        init_calls i (mqtt_create_calls_events (mqtt_create_calls s calls).1 later) = 0) ∧
      init_calls i (mqtt_create_calls_events s calls)
        ≤ init_failed_calls i (mqtt_create_calls_events s calls) + 1 ∧
      (init_failed_calls i (mqtt_create_calls_events s calls) = 0 →
        init_calls i (mqtt_create_calls_events s calls) ≤ 1) := by
  obtain ⟨evs, htr, h1, h2, h3⟩ := mqtt_create_calls_step s calls i
  have hev : mqtt_create_calls_events s calls = evs := by
    rw [mqtt_create_calls_events, htr, drop_length_append]
  rw [hev]
  have hsplit := init_calls_split i evs
  refine ⟨h1, fun h => (h2 h).1, ?_, by omega, by omega⟩
  intro later hpos
  obtain ⟨evs2, htr2, -, k2, -⟩ := mqtt_create_calls_step (mqtt_create_calls s calls).1 later i
  have hev2 : mqtt_create_calls_events (mqtt_create_calls s calls).1 later = evs2 := by
    rw [mqtt_create_calls_events, htr2, drop_length_append]
  rw [hev2]
  exact (k2 (h3 hpos)).1

/-- C7 as stated fails: a registered driver whose `init` returns 1 on every invocation,
two calls that both resolve to it; `init` is invoked twice. -/
theorem mqtt_create_calls_init_invoked_twice :
    resolves_to (fresh_state [stub_driver_with "alpha" (fun _ => 1) none] none none)
        (some "alpha") 0 (stub_driver_with "alpha" (fun _ => 1) none) ∧
      resolves_to
        (mqtt_create (fresh_state [stub_driver_with "alpha" (fun _ => 1) none] none none)
          (some "alpha") 1).state
        (some "alpha") 0 (stub_driver_with "alpha" (fun _ => 1) none) ∧
      init_calls 0
        (mqtt_create_calls_events
          (fresh_state [stub_driver_with "alpha" (fun _ => 1) none] none none)
          [(some "alpha", 1), (some "alpha", 2)]) = 2 ∧
      ¬ init_calls 0
        (mqtt_create_calls_events
          (fresh_state [stub_driver_with "alpha" (fun _ => 1) none] none none)
          [(some "alpha", 1), (some "alpha", 2)]) ≤ 1 := by
  refine ⟨⟨by decide, rfl⟩, ⟨by decide, rfl⟩, by decide, by decide⟩

/-! ## The resolved call in closed form -/

/-- The driver calls of lines 208 to 227: `init` runs exactly when the descriptor is not
initialised, `thread_init` runs exactly when the one-time section passes and the pointer
is set. -/
theorem mqtt_create_init_events (s2 : State) (i : Nat) (d : mqtt_driver_t) (tid : Int) :
    ∃ devs, (mqtt_create_init s2 i d tid).state.trace = s2.trace ++ devs ∧
      devs.filter (Event.is_init i) =
        (if d.initialized = true then []
          else [Event.init i (d.ops.init (init_calls i s2.trace))]) ∧
      devs.filter Event.is_any_thread_init =
        (if init_passes s2 i d = true then
          match d.ops.thread_init with
          | none => []
          | some f => [Event.thread_init i tid (f tid (thread_init_calls i s2.trace))]
        else []) := by
  rcases mqtt_create_init_cases s2 i d tid with
    ⟨hi, hrc, heq⟩ | ⟨s3, hp, (⟨hi, hs3⟩ | ⟨hi, hrc, hs3⟩), hthr⟩
  · rw [heq]
    refine ⟨[.mutex_lock i, .init i (d.ops.init (init_calls i s2.trace)), .mutex_unlock i],
      by simp, ?_, ?_⟩
    · simp [hi, Event.is_init, List.filter]
    · simp [init_passes, hi, hrc, Event.is_any_thread_init, List.filter]
  · subst hs3
    rcases hthr with ⟨ht, heq⟩ | ⟨f, ht, hrc2, heq⟩ | ⟨f, ht, hrc2, heq⟩
    · rw [heq]
      refine ⟨[.mutex_lock i, .mutex_unlock i], by simp, ?_, ?_⟩
      · simp [hi, Event.is_init, List.filter]
      · simp [hp, ht, Event.is_any_thread_init, List.filter]
    · rw [heq]
      refine ⟨[.mutex_lock i, .mutex_unlock i, .thread_init i tid 0], by simp, ?_, ?_⟩
      · simp [hi, Event.is_init, List.filter]
      · simp [hp, ht, hrc2, Event.is_any_thread_init, List.filter]
    · rw [heq]
      refine ⟨[.mutex_lock i, .mutex_unlock i,
          .thread_init i tid (f tid (thread_init_calls i s2.trace)),
          .log_text .LOG_FATAL "thread-local driver initialization failed." []],
        by simp [log_text], ?_, ?_⟩
      · simp [hi, Event.is_init, List.filter]
      · simp [hp, ht, Event.is_any_thread_init, List.filter]
  · subst hs3
    rcases hthr with ⟨ht, heq⟩ | ⟨f, ht, hrc2, heq⟩ | ⟨f, ht, hrc2, heq⟩
    · rw [heq]
      refine ⟨[.mutex_lock i, .init i 0, .mutex_unlock i], by simp, ?_, ?_⟩
      · simp [hi, hrc, Event.is_init, List.filter]
      · simp [hp, ht, Event.is_any_thread_init, List.filter]
    · rw [heq]
      refine ⟨[.mutex_lock i, .init i 0, .mutex_unlock i, .thread_init i tid 0],
        by simp, ?_, ?_⟩
      · simp [hi, hrc, Event.is_init, List.filter]
      · simp [hp, ht, hrc2, Event.is_any_thread_init, List.filter]
    · rw [heq]
      refine ⟨[.mutex_lock i, .init i 0, .mutex_unlock i,
          .thread_init i tid (f tid (thread_init_calls i s2.trace)),
          .log_text .LOG_FATAL "thread-local driver initialization failed." []],
        by simp [log_text], ?_, ?_⟩
      · simp [hi, hrc, Event.is_init, List.filter]
      · simp [hp, ht, Event.is_any_thread_init, List.filter]

/-- The descriptor that lines 208 to 227 leave behind: the mutex is released, and the
descriptor is initialised exactly when the one-time section passed. -/
theorem mqtt_create_init_descriptor (s2 : State) (i : Nat) (d : mqtt_driver_t) (tid : Int)
    (hget : s2.drivers[i]? = some d) :
    (mqtt_create_init s2 i d tid).state.drivers[i]? =
      some { d with mutex := false, initialized := init_passes s2 i d } := by
  rcases mqtt_create_init_cases s2 i d tid with
    ⟨hi, hrc, heq⟩ | ⟨s3, hp, (⟨hi, hs3⟩ | ⟨hi, hrc, hs3⟩), hthr⟩
  · rw [heq]
    simp [update_at_getElem?, hget, init_passes, hi, hrc]
  · have hdr : (mqtt_create_init s2 i d tid).state.drivers = s3.drivers := by
      rcases hthr with ⟨-, heq⟩ | ⟨f, -, -, heq⟩ | ⟨f, -, -, heq⟩ <;> rw [heq] <;> rfl
    rw [hdr, hs3]
    simp [update_at_getElem?, hget, hp, ← hi]
  · have hdr : (mqtt_create_init s2 i d tid).state.drivers = s3.drivers := by
      rcases hthr with ⟨-, heq⟩ | ⟨f, -, -, heq⟩ | ⟨f, -, -, heq⟩ <;> rw [heq] <;> rfl
    rw [hdr, hs3]
    simp [update_at_getElem?, hget, hp]

/-- The value that lines 208 to 227 return. -/
theorem mqtt_create_init_ret (s2 : State) (i : Nat) (d : mqtt_driver_t) (tid : Int) :
    (mqtt_create_init s2 i d tid).ret =
      if init_passes s2 i d = true ∧ thread_init_passes s2 i d tid = true then .drv i
      else .NULL := by
  rcases mqtt_create_init_cases s2 i d tid with
    ⟨hi, hrc, heq⟩ | ⟨s3, hp, -, hthr⟩
  · rw [heq]
    simp [init_passes, hi, hrc]
  · rcases hthr with ⟨ht, heq⟩ | ⟨f, ht, hrc2, heq⟩ | ⟨f, ht, hrc2, heq⟩
    · rw [heq]; simp [hp, thread_init_passes, ht]
    · rw [heq]; simp [hp, thread_init_passes, ht, hrc2]
    · rw [heq]; simp [hp, thread_init_passes, ht, hrc2]

theorem filter_layer_thread_init (evs : List Event) (h : ∀ e ∈ evs, e.is_layer_call = true) :
    evs.filter Event.is_any_thread_init = [] := by
  rw [List.filter_eq_nil_iff]
  intro e he
  have := h e he
  cases e <;> simp_all [Event.is_layer_call, Event.is_any_thread_init]

theorem filter_layer_init (i : Nat) (evs : List Event) (h : ∀ e ∈ evs, e.is_layer_call = true) :
    evs.filter (Event.is_init i) = [] := by
  rw [List.filter_eq_nil_iff]
  intro e he
  have := h e he
  cases e <;> simp_all [Event.is_layer_call, Event.is_init]

theorem mqtt_create_trace (s : State) (name : Option String) (tid : Int) :
    (mqtt_create s name tid).state.trace = s.trace ++ mqtt_create_events s name tid := by
  obtain ⟨evs, htr, -⟩ := mqtt_create_step s name tid 0
  rw [mqtt_create_events, htr, drop_length_append]

/-- The passing conditions in the state where the chosen driver is initialised are those
of the state at entry. -/
theorem resolves_to_passes (s : State) (name : Option String) (i : Nat) (d : mqtt_driver_t)
    (tid : Int) (h : resolves_to s name i d) :
    init_calls i (mqtt_select (pthread_once s) name).1.trace = init_calls i s.trace ∧
      thread_init_calls i (mqtt_select (pthread_once s) name).1.trace
        = thread_init_calls i s.trace ∧
      init_passes (mqtt_select (pthread_once s) name).1 i d = init_passes s i d ∧
      thread_init_passes (mqtt_select (pthread_once s) name).1 i d tid
        = thread_init_passes s i d tid := by
  obtain ⟨-, -, evs0, htr0, hl0⟩ := resolves_to_state s name i d h
  have h1 : init_calls i (mqtt_select (pthread_once s) name).1.trace = init_calls i s.trace := by
    rw [htr0, init_calls_append_quiet i _ _ (layer_call_quiet evs0 hl0)]
  have h2 : thread_init_calls i (mqtt_select (pthread_once s) name).1.trace
      = thread_init_calls i s.trace := by
    rw [htr0, thread_init_calls_append_quiet i _ _ (layer_call_quiet evs0 hl0)]
  exact ⟨h1, h2, init_passes_congr s _ i d h1, thread_init_passes_congr s _ i d tid h2⟩

/-- The value returned by a call that chooses descriptor `d` at position `i`. -/
theorem mqtt_create_resolved_ret (s : State) (name : Option String) (tid : Int) (i : Nat)
    (d : mqtt_driver_t) (h : resolves_to s name i d) :
    (mqtt_create s name tid).ret =
      if init_passes s i d = true ∧ thread_init_passes s i d tid = true then .drv i
      else .NULL := by
  obtain ⟨-, -, h3, h4⟩ := resolves_to_passes s name i d tid h
  rw [mqtt_create_resolved s name tid i d h, mqtt_create_init_ret, h3, h4]

/-- The chosen descriptor after a call that chooses descriptor `d` at position `i`. -/
theorem mqtt_create_resolved_descriptor (s : State) (name : Option String) (tid : Int)
    (i : Nat) (d : mqtt_driver_t) (h : resolves_to s name i d) :
    (mqtt_create s name tid).state.drivers[i]? =
      some { d with mutex := false, initialized := init_passes s i d } := by
  obtain ⟨hdr, hget, -⟩ := resolves_to_state s name i d h
  obtain ⟨-, -, h3, -⟩ := resolves_to_passes s name i d tid h
  rw [mqtt_create_resolved s name tid i d h,
    mqtt_create_init_descriptor _ i d tid (by rw [hdr]; exact hget), h3]

/-- The driver calls of a call that chooses descriptor `d` at position `i`. -/
theorem mqtt_create_resolved_events (s : State) (name : Option String) (tid : Int)
    (i : Nat) (d : mqtt_driver_t) (h : resolves_to s name i d) :
    (mqtt_create_events s name tid).filter (Event.is_init i) =
        (if d.initialized = true then []
          else [Event.init i (d.ops.init (init_calls i s.trace))]) ∧
      (mqtt_create_events s name tid).filter Event.is_any_thread_init =
        (if init_passes s i d = true then
          match d.ops.thread_init with
          | none => []
          | some f => [Event.thread_init i tid (f tid (thread_init_calls i s.trace))]
        else []) := by
  obtain ⟨-, -, evs0, htr0, hl0⟩ := resolves_to_state s name i d h
  obtain ⟨h1, h2, h3, -⟩ := resolves_to_passes s name i d tid h
  obtain ⟨devs, htr, hfi, hft⟩ :=
    mqtt_create_init_events (mqtt_select (pthread_once s) name).1 i d tid
  have hev : mqtt_create_events s name tid = evs0 ++ devs := by
    rw [mqtt_create_events, mqtt_create_resolved s name tid i d h, htr, htr0,
      List.append_assoc, drop_length_append]
  rw [hev, List.filter_append, List.filter_append, filter_layer_init i evs0 hl0,
    filter_layer_thread_init evs0 hl0, hfi, hft, h1, h2, h3]
  simp

/-- A call that chooses no descriptor calls no `thread_init`. -/
theorem mqtt_create_unresolved_events (s : State) (name : Option String) (tid : Int)
    (h : ¬ ∃ i d, resolves_to s name i d) :
    (mqtt_create_events s name tid).filter Event.is_any_thread_init = [] := by
  rcases mqtt_create_cases s name tid with ⟨-, ⟨evs, htr, hl⟩, -⟩ | hres
  · rw [mqtt_create_events, htr, drop_length_append]
    exact filter_layer_thread_init evs hl
  · exact absurd hres h

/-! ## C8: a failed `init` is retried -/

theorem init_calls_eq_length_filter (i : Nat) (evs : List Event) :
    init_calls i evs = (evs.filter (Event.is_init i)).length := by
  simp [init_calls, List.countP_eq_length_filter]

/-- C8, as the code has it.  Let a call choose descriptor `d` at position `i`, not yet
initialised, and let its `ops.init` return non-zero.  Then the call returns `NULL`, the
descriptor is left not initialised and with its mutex released, no `thread_init` is
invoked, and the failed invocation is on record.  In the state the call leaves, and in
every later state that holds the descriptor as the call left it, every call that chooses
the descriptor at position `i` invokes its `ops.init` again, once; if this invocation
returns 0 the descriptor is initialised after the call, and the call returns the
descriptor provided `thread_init` is absent or returns 0 for the calling thread. -/
theorem mqtt_create_init_failure_retried (s : State) (name : Option String) (tid : Int)
    (i : Nat) (d : mqtt_driver_t)
    (hres : resolves_to s name i d) (huninit : d.initialized = false)
    (hrc : d.ops.init (init_calls i s.trace) ≠ 0) :
    (mqtt_create s name tid).ret = .NULL ∧
      (mqtt_create s name tid).state.drivers[i]?
        = some { d with initialized := false, mutex := false } ∧
      (mqtt_create_events s name tid).filter Event.is_any_thread_init = [] ∧
      init_calls i (mqtt_create s name tid).state.trace = init_calls i s.trace + 1 ∧
      ∀ (s2 : State) (name2 : Option String) (tid2 : Int) (d2 : mqtt_driver_t),
        s2.drivers[i]? = (mqtt_create s name tid).state.drivers[i]? →
        resolves_to s2 name2 i d2 →
        (mqtt_create_events s2 name2 tid2).filter (Event.is_init i)
            = [Event.init i (d.ops.init (init_calls i s2.trace))] ∧
          (d.ops.init (init_calls i s2.trace) = 0 →
            initialized_at (mqtt_create s2 name2 tid2).state i = true ∧
              (thread_init_passes s2 i d2 tid2 = true →
                (mqtt_create s2 name2 tid2).ret = .drv i)) := by
  have hp : init_passes s i d = false := by simp [init_passes, huninit, hrc]
  have hdesc := mqtt_create_resolved_descriptor s name tid i d hres
  rw [hp] at hdesc
  obtain ⟨hfi, hft⟩ := mqtt_create_resolved_events s name tid i d hres
  refine ⟨?_, hdesc, ?_, ?_, ?_⟩
  · rw [mqtt_create_resolved_ret s name tid i d hres]
    simp [hp]
  · rw [hft]
    simp [hp]
  · rw [mqtt_create_trace, init_calls_append,
      init_calls_eq_length_filter i (mqtt_create_events _ _ _), hfi]
    simp [huninit]
  · intro s2 name2 tid2 d2 hsame hres2
    have hd2 : d2 = { d with initialized := false, mutex := false } := by
      obtain ⟨-, hget2, -⟩ := resolves_to_state s2 name2 i d2 hres2
      rw [hsame, hdesc] at hget2
      exact (Option.some.inj hget2).symm
    obtain ⟨hfi2, -⟩ := mqtt_create_resolved_events s2 name2 tid2 i d2 hres2
    have hops : d2.ops = d.ops := by rw [hd2]
    have hin2 : d2.initialized = false := by rw [hd2]
    refine ⟨?_, ?_⟩
    · rw [hfi2, hops]
      simp [hin2]
    · intro hrc2
      have hp2 : init_passes s2 i d2 = true := by
        simp [init_passes, hops, hrc2]
      refine ⟨?_, ?_⟩
      · have := mqtt_create_resolved_descriptor s2 name2 tid2 i d2 hres2
        simp [initialized_at, this, hp2]
      · intro htp2
        rw [mqtt_create_resolved_ret s2 name2 tid2 i d2 hres2]
        simp [hp2, htp2]

/-- Witness of C8: a registered driver whose `init` fails on its first invocation only. -/
theorem mqtt_create_init_failure_retried_witness :
    (mqtt_create (fresh_state [stub_driver_with "alpha" init_fails_once none] none none)
        (some "alpha") 1).ret = .NULL ∧
      (mqtt_create (fresh_state [stub_driver_with "alpha" init_fails_once none] none none)
        (some "alpha") 1).state.drivers[0]?
        = some { stub_driver_with "alpha" init_fails_once none with
            initialized := false, mutex := false } ∧
      (mqtt_create_events (fresh_state [stub_driver_with "alpha" init_fails_once none] none none)
        (some "alpha") 1).filter Event.is_any_thread_init = [] ∧
      init_calls 0
          (mqtt_create (fresh_state [stub_driver_with "alpha" init_fails_once none] none none)
            (some "alpha") 1).state.trace
        = init_calls 0
            (fresh_state [stub_driver_with "alpha" init_fails_once none] none none).trace + 1 ∧
      ∀ (s2 : State) (name2 : Option String) (tid2 : Int) (d2 : mqtt_driver_t),
        s2.drivers[0]?
          = (mqtt_create (fresh_state [stub_driver_with "alpha" init_fails_once none] none none)
              (some "alpha") 1).state.drivers[0]? →
        resolves_to s2 name2 0 d2 →
        (mqtt_create_events s2 name2 tid2).filter (Event.is_init 0)
            = [Event.init 0 ((stub_driver_with "alpha" init_fails_once none).ops.init
                (init_calls 0 s2.trace))] ∧
          ((stub_driver_with "alpha" init_fails_once none).ops.init (init_calls 0 s2.trace) = 0 →
            initialized_at (mqtt_create s2 name2 tid2).state 0 = true ∧
              (thread_init_passes s2 0 d2 tid2 = true →
                (mqtt_create s2 name2 tid2).ret = .drv 0)) :=
  mqtt_create_init_failure_retried
    (fresh_state [stub_driver_with "alpha" init_fails_once none] none none) (some "alpha") 1 0
    (stub_driver_with "alpha" init_fails_once none) ⟨by decide, rfl⟩ rfl (by decide)

/-- C8 as stated fails in its last part: the driver's `init` fails on the first call and
returns 0 on the second call, which chooses the same descriptor and invokes `init`
again; but the driver's `thread_init` returns non-zero, so the second call returns
`NULL` although the second `init` returned 0. -/
theorem mqtt_create_retry_thread_init_fails :
    resolves_to
        (fresh_state [stub_driver_with "alpha" init_fails_once (some (fun _ _ => 1))] none none)
        (some "alpha") 0 (stub_driver_with "alpha" init_fails_once (some (fun _ _ => 1))) ∧
      (mqtt_create
        (fresh_state [stub_driver_with "alpha" init_fails_once (some (fun _ _ => 1))] none none)
        (some "alpha") 1).ret = .NULL ∧
      mqtt_create_events
        (fresh_state [stub_driver_with "alpha" init_fails_once (some (fun _ _ => 1))] none none)
        (some "alpha") 1 = [.parse_arguments 0, .reset_stats, .mutex_lock 0, .init 0 1,
          .mutex_unlock 0] ∧
      resolves_to
        (mqtt_create
          (fresh_state [stub_driver_with "alpha" init_fails_once (some (fun _ _ => 1))] none
            none)
          (some "alpha") 1).state
        (some "alpha") 0 (stub_driver_with "alpha" init_fails_once (some (fun _ _ => 1))) ∧
      mqtt_create_events
        (mqtt_create
          (fresh_state [stub_driver_with "alpha" init_fails_once (some (fun _ _ => 1))] none
            none)
          (some "alpha") 1).state
        (some "alpha") 1 = [.mutex_lock 0, .init 0 0, .mutex_unlock 0, .thread_init 0 1 1,
          .log_text .LOG_FATAL "thread-local driver initialization failed." []] ∧
      (mqtt_create
        (mqtt_create
          (fresh_state [stub_driver_with "alpha" init_fails_once (some (fun _ _ => 1))] none
            none)
          (some "alpha") 1).state
        (some "alpha") 1).ret = .NULL := by
  refine ⟨⟨by decide, rfl⟩, by decide, by decide, ⟨by decide, rfl⟩, by decide, by decide⟩

/-! ## C9, C10: thread-local initialisation -/

/-- C9. Let a call of thread `tid` choose descriptor `d` at position `i`, and let the call
invoke the descriptor's `ops.thread_init` with a non-zero return value `rc`.  Then the
call returns `NULL`, the invocation was made for the calling thread, and the descriptor
is initialised (and its mutex released) after the call, whether or not it was
initialised before. -/
theorem mqtt_create_thread_init_failure (s : State) (name : Option String) (tid : Int)
    (i : Nat) (d : mqtt_driver_t) (tid1 : Int) (rc : Int)
    (hres : resolves_to s name i d)
    (hev : Event.thread_init i tid1 rc ∈ mqtt_create_events s name tid)
    (hrc : rc ≠ 0) :
    (mqtt_create s name tid).ret = .NULL ∧
      tid1 = tid ∧
      d.ops.thread_init.isSome = true ∧
      (mqtt_create s name tid).state.drivers[i]?
        = some { d with initialized := true, mutex := false } := by
  obtain ⟨-, hft⟩ := mqtt_create_resolved_events s name tid i d hres
  have hmem : Event.thread_init i tid1 rc ∈
      (mqtt_create_events s name tid).filter Event.is_any_thread_init :=
    List.mem_filter.mpr ⟨hev, rfl⟩
  rw [hft] at hmem
  by_cases hp : init_passes s i d = true
  · simp only [hp, if_true] at hmem
    cases ht : d.ops.thread_init with
    | none => simp [ht] at hmem
    | some f =>
      simp only [ht, List.mem_singleton, Event.thread_init.injEq, true_and] at hmem
      obtain ⟨h1, h2⟩ := hmem
      have htp : thread_init_passes s i d tid = false := by
        simp only [thread_init_passes, ht, decide_eq_false_iff_not]
        rw [← h2]
        exact hrc
      refine ⟨?_, h1, rfl, ?_⟩
      · rw [mqtt_create_resolved_ret s name tid i d hres]
        simp [htp]
      · rw [mqtt_create_resolved_descriptor s name tid i d hres, hp]
  · simp [hp] at hmem

/-- Witness of C9: a fresh driver whose `init` returns 0 and whose `thread_init`
returns 5. -/
theorem mqtt_create_thread_init_failure_witness :
    (mqtt_create
        (fresh_state [stub_driver_with "alpha" (fun _ => 0) (some (fun _ _ => 5))] none none)
        (some "alpha") 7).ret = .NULL ∧
      (7 : Int) = 7 ∧
      (stub_driver_with "alpha" (fun _ => 0)
        (some (fun _ _ => 5))).ops.thread_init.isSome = true ∧
      (mqtt_create
        (fresh_state [stub_driver_with "alpha" (fun _ => 0) (some (fun _ _ => 5))] none none)
        (some "alpha") 7).state.drivers[0]?
        = some { stub_driver_with "alpha" (fun _ => 0) (some (fun _ _ => 5)) with
            initialized := true, mutex := false } :=
  mqtt_create_thread_init_failure
    (fresh_state [stub_driver_with "alpha" (fun _ => 0) (some (fun _ _ => 5))] none none)
    (some "alpha") 7 0 (stub_driver_with "alpha" (fun _ => 0) (some (fun _ _ => 5))) 7 5
    ⟨by decide, rfl⟩ (by decide) (by decide)

/-- C10. Let a call of thread `tid` choose descriptor `d` at position `i` and get past the
one-time initialisation (`d` is already initialised, or its `ops.init` returns 0 in this
call).  If `ops.thread_init` is present, the call invokes exactly one `thread_init`: the
one of `d`, with `tid` as argument.  If `ops.thread_init` is absent, the call invokes no
`thread_init` and returns `d`. -/
theorem mqtt_create_thread_init_once (s : State) (name : Option String) (tid : Int)
    (i : Nat) (d : mqtt_driver_t)
    (hres : resolves_to s name i d)
    (hpast : d.initialized = true ∨ d.ops.init (init_calls i s.trace) = 0) :
    (∀ f, d.ops.thread_init = some f →
        (mqtt_create_events s name tid).filter Event.is_any_thread_init
          = [Event.thread_init i tid (f tid (thread_init_calls i s.trace))]) ∧
      (d.ops.thread_init = none →
        (mqtt_create_events s name tid).filter Event.is_any_thread_init = [] ∧
          (mqtt_create s name tid).ret = .drv i) := by
  have hp : init_passes s i d = true := by
    rcases hpast with h | h <;> simp [init_passes, h]
  obtain ⟨-, hft⟩ := mqtt_create_resolved_events s name tid i d hres
  refine ⟨?_, ?_⟩
  · intro f hf
    rw [hft]
    simp [hp, hf]
  · intro hnone
    refine ⟨?_, ?_⟩
    · rw [hft]
      simp [hp, hnone]
    · rw [mqtt_create_resolved_ret s name tid i d hres]
      simp [hp, thread_init_passes, hnone]

/-- Witness of C10: a descriptor that is already initialised, whose `init` would fail,
with a `thread_init` that returns 0 for thread 7. -/
theorem mqtt_create_thread_init_once_witness :
    (∀ f, ({ stub_driver_with "alpha" (fun _ => 1) (some (fun t _ => t - 7)) with
          initialized := true } : mqtt_driver_t).ops.thread_init = some f →
        (mqtt_create_events
          (fresh_state
            [{ stub_driver_with "alpha" (fun _ => 1) (some (fun t _ => t - 7)) with
                initialized := true }] none none)
          (some "alpha") 7).filter Event.is_any_thread_init
          = [Event.thread_init 0 7 (f 7 (thread_init_calls 0
              (fresh_state
                [{ stub_driver_with "alpha" (fun _ => 1) (some (fun t _ => t - 7)) with
                    initialized := true }] none none).trace))]) ∧
      (({ stub_driver_with "alpha" (fun _ => 1) (some (fun t _ => t - 7)) with
          initialized := true } : mqtt_driver_t).ops.thread_init = none →
        (mqtt_create_events
          (fresh_state
            [{ stub_driver_with "alpha" (fun _ => 1) (some (fun t _ => t - 7)) with
                initialized := true }] none none)
          (some "alpha") 7).filter Event.is_any_thread_init = [] ∧
          (mqtt_create
            (fresh_state
              [{ stub_driver_with "alpha" (fun _ => 1) (some (fun t _ => t - 7)) with
                  initialized := true }] none none)
            (some "alpha") 7).ret = .drv 0) :=
  mqtt_create_thread_init_once
    (fresh_state
      [{ stub_driver_with "alpha" (fun _ => 1) (some (fun t _ => t - 7)) with
          initialized := true }] none none)
    (some "alpha") 7 0
    { stub_driver_with "alpha" (fun _ => 1) (some (fun t _ => t - 7)) with initialized := true }
    ⟨by decide, rfl⟩ (Or.inl rfl)

/-! ## What a call leaves alone -/

theorem same_globals_refl (a : State) : same_globals a a :=
  ⟨rfl, rfl, rfl, rfl, rfl, rfl⟩

theorem same_globals_trans (a b c : State) (h1 : same_globals a b) (h2 : same_globals b c) :
    same_globals a c := by
  obtain ⟨a1, a2, a3, a4, a5, a6⟩ := h1
  obtain ⟨b1, b2, b3, b4, b5, b6⟩ := h2
  exact ⟨a1.trans b1, a2.trans b2, a3.trans b3, a4.trans b4, a5.trans b5, a6.trans b6⟩

/-- Lines 208 to 227 write to the chosen descriptor and to the trace only. -/
theorem mqtt_create_init_same_globals (s2 : State) (i : Nat) (d : mqtt_driver_t) (tid : Int) :
    same_globals (mqtt_create_init s2 i d tid).state s2 := by
  rcases mqtt_create_init_cases s2 i d tid with
    ⟨-, -, heq⟩ | ⟨s3, -, (⟨-, hs3⟩ | ⟨-, -, hs3⟩), hthr⟩
  · rw [heq]
    exact same_globals_refl s2
  · subst hs3
    rcases hthr with ⟨-, heq⟩ | ⟨f, -, -, heq⟩ | ⟨f, -, -, heq⟩ <;> rw [heq] <;>
      exact same_globals_refl s2
  · subst hs3
    rcases hthr with ⟨-, heq⟩ | ⟨f, -, -, heq⟩ | ⟨f, -, -, heq⟩ <;> rw [heq] <;>
      exact same_globals_refl s2

/-- The selection part writes to the trace only. -/
theorem mqtt_select_same_globals (s : State) (name : Option String) :
    same_globals (mqtt_select s name).1 s := by
  obtain ⟨logs, h, -⟩ := mqtt_select_state s name
  rw [h]
  exact same_globals_refl s

/-- After `pthread_once` has returned, a call writes to descriptors and to the trace
only. -/
theorem mqtt_create_same_globals (s : State) (name : Option String) (tid : Int) :
    same_globals (mqtt_create s name tid).state (pthread_once s) := by
  by_cases hg : (pthread_once s).mqtt_global_initialized = false
  · rw [mqtt_create_of_uninitialized s name tid hg]
    exact same_globals_refl _
  · simp only [Bool.not_eq_false] at hg
    cases hsel : (mqtt_select (pthread_once s) name).2 with
    | found i d =>
      rw [mqtt_create_resolved s name tid i d ⟨hg, hsel⟩]
      exact same_globals_trans _ _ _ (mqtt_create_init_same_globals _ i d tid)
        (mqtt_select_same_globals _ name)
    | err =>
      rw [mqtt_create_of_err s name tid hg hsel]
      exact mqtt_select_same_globals _ name
    | fault f =>
      rw [mqtt_create_of_fault s name tid f hg hsel]
      exact mqtt_select_same_globals _ name

/-- When the latch is set, `pthread_once` does nothing. -/
theorem pthread_once_latched (s : State) (h : s.mqtt_global_once = true) : pthread_once s = s := by
  simp [pthread_once, h]

theorem pthread_once_sets_latch (s : State) : (pthread_once s).mqtt_global_once = true := by
  unfold pthread_once
  split
  · assumption
  · rfl

/-- A handle is returned only with global initialisation complete. -/
theorem mqtt_create_ret_drv_initialized (s : State) (name : Option String) (tid : Int) (i : Nat)
    (h : (mqtt_create s name tid).ret = .drv i) :
    (pthread_once s).mqtt_global_initialized = true := by
  by_cases hg : (pthread_once s).mqtt_global_initialized = false
  · rw [mqtt_create_of_uninitialized s name tid hg] at h
    cases h
  · simpa using hg

/-! ## C14: what `mqtt_init` does -/

theorem SB_LIST_IS_EMPTY_false_iff (ds : List mqtt_driver_t) :
    SB_LIST_IS_EMPTY ds = false ↔ ds ≠ [] := by
  cases ds <;> simp [SB_LIST_IS_EMPTY, SB_LIST_ITEM_NEXT]

/-- The three paths of `mqtt_init`: registry empty, argument parse failed, done. -/
theorem mqtt_init_paths (s : State) :
    (s.drivers ≠ [] ∧ (s.parse_arguments_stub s.mqtt_globals).1 = 0 →
      (mqtt_init s).mqtt_global_initialized = true ∧
        (mqtt_init s).trace = s.trace ++ [.parse_arguments 0, .reset_stats] ∧
        (mqtt_init s).stats_enabled = 1) ∧
    (s.drivers = [] →
      (mqtt_init s).trace
          = s.trace ++ [.log_text .LOG_FATAL "No MQTT drivers available" []] ∧
        (mqtt_init s).mqtt_global_initialized = s.mqtt_global_initialized ∧
        (mqtt_init s).stats_enabled = s.stats_enabled) ∧
    (s.drivers ≠ [] ∧ (s.parse_arguments_stub s.mqtt_globals).1 ≠ 0 →
      (mqtt_init s).trace
          = s.trace ++ [.parse_arguments (s.parse_arguments_stub s.mqtt_globals).1] ∧
        (mqtt_init s).mqtt_global_initialized = s.mqtt_global_initialized ∧
        (mqtt_init s).stats_enabled = s.stats_enabled) := by
  have hA : s.drivers ≠ [] ∧ (s.parse_arguments_stub s.mqtt_globals).1 = 0 →
      (mqtt_init s).mqtt_global_initialized = true ∧
        (mqtt_init s).trace = s.trace ++ [.parse_arguments 0, .reset_stats] ∧
        (mqtt_init s).stats_enabled = 1 := by
    rintro ⟨hne, hrc⟩
    rw [mqtt_init_done s ((SB_LIST_IS_EMPTY_false_iff _).mpr hne) hrc]
    simp [enable_print_stats, mqtt_reset_stats, mqtt_parse_arguments, hrc]
  have hB : s.drivers = [] →
      (mqtt_init s).trace
          = s.trace ++ [.log_text .LOG_FATAL "No MQTT drivers available" []] ∧
        (mqtt_init s).mqtt_global_initialized = s.mqtt_global_initialized ∧
        (mqtt_init s).stats_enabled = s.stats_enabled := by
    intro he
    rw [mqtt_init_empty s ((SB_LIST_IS_EMPTY_iff _).mpr he)]
    exact ⟨rfl, rfl, rfl⟩
  have hC : s.drivers ≠ [] ∧ (s.parse_arguments_stub s.mqtt_globals).1 ≠ 0 →
      (mqtt_init s).trace
          = s.trace ++ [.parse_arguments (s.parse_arguments_stub s.mqtt_globals).1] ∧
        (mqtt_init s).mqtt_global_initialized = s.mqtt_global_initialized ∧
        (mqtt_init s).stats_enabled = s.stats_enabled := by
    rintro ⟨hne, hrc⟩
    rw [mqtt_init_parse_failed s ((SB_LIST_IS_EMPTY_false_iff _).mpr hne) hrc]
    exact ⟨rfl, rfl, rfl⟩
  exact ⟨hA, hB, hC⟩

/-- C14. For every state in which `mqtt_init` runs.  With a non-empty registry and
`mqtt_parse_arguments` returning 0, it sets `mqtt_global_initialized`, its external calls
are one argument parse followed by one statistics reset, and it leaves
`stats_enabled = 1`.  With an empty registry its only external call is the fatal log
message, so `mqtt_parse_arguments` is not called.  With a non-empty registry and a
non-zero result of `mqtt_parse_arguments`, its only external call is that parse.  In
both failure cases `mqtt_global_initialized` and `stats_enabled` keep their values and
no statistics reset happens.  Hence, the flag being clear before, it is set afterwards
if and only if the registry is non-empty and `mqtt_parse_arguments` returns 0. -/
theorem mqtt_init_outcome (s : State) :
    (s.drivers ≠ [] ∧ (s.parse_arguments_stub s.mqtt_globals).1 = 0 →
      (mqtt_init s).mqtt_global_initialized = true ∧
        (mqtt_init s).trace = s.trace ++ [.parse_arguments 0, .reset_stats] ∧
        (mqtt_init s).stats_enabled = 1) ∧
    (s.drivers = [] →
      (mqtt_init s).trace
          = s.trace ++ [.log_text .LOG_FATAL "No MQTT drivers available" []] ∧
        (mqtt_init s).mqtt_global_initialized = s.mqtt_global_initialized ∧
        (mqtt_init s).stats_enabled = s.stats_enabled) ∧
    (s.drivers ≠ [] ∧ (s.parse_arguments_stub s.mqtt_globals).1 ≠ 0 →
      (mqtt_init s).trace
          = s.trace ++ [.parse_arguments (s.parse_arguments_stub s.mqtt_globals).1] ∧
        (mqtt_init s).mqtt_global_initialized = s.mqtt_global_initialized ∧
        (mqtt_init s).stats_enabled = s.stats_enabled) ∧
    (s.mqtt_global_initialized = false →
      ((mqtt_init s).mqtt_global_initialized = true ↔
        s.drivers ≠ [] ∧ (s.parse_arguments_stub s.mqtt_globals).1 = 0)) := by
  obtain ⟨hA, hB, hC⟩ := mqtt_init_paths s
  refine ⟨hA, hB, hC, ?_⟩
  intro hflag
  constructor
  · intro h
    by_cases he : s.drivers = []
    · rw [(hB he).2.1, hflag] at h
      cases h
    · by_cases hrc : (s.parse_arguments_stub s.mqtt_globals).1 = 0
      · exact ⟨he, hrc⟩
      · rw [(hC ⟨he, hrc⟩).2.1, hflag] at h
        cases h
  · intro h
    exact (hA h).1

/-! ## C11: the statistics flag -/

/-- The flag `stats_enabled` mirrors `mqtt_global_initialized`, and the latter is only set
with the latch set: this holds at process start and is kept by `pthread_once`. -/
theorem pthread_once_flags (s : State)
    (h1 : s.mqtt_global_initialized = true → s.stats_enabled = 1 ∧ s.mqtt_global_once = true)
    (h2 : s.mqtt_global_initialized = false → s.stats_enabled = 0) :
    ((pthread_once s).mqtt_global_initialized = true →
        (pthread_once s).stats_enabled = 1 ∧ (pthread_once s).mqtt_global_once = true) ∧
      ((pthread_once s).mqtt_global_initialized = false → (pthread_once s).stats_enabled = 0) := by
  by_cases honce : s.mqtt_global_once = true
  · rw [pthread_once_latched s honce]
    exact ⟨h1, h2⟩
  · simp only [Bool.not_eq_true] at honce
    have hflag : s.mqtt_global_initialized = false := by
      cases hf : s.mqtt_global_initialized
      · rfl
      · rw [(h1 hf).2] at honce
        cases honce
    have hst := h2 hflag
    obtain ⟨hA, hB, hC⟩ := mqtt_init_paths s
    have hl := pthread_once_sets_latch s
    have hfl : (pthread_once s).mqtt_global_initialized = (mqtt_init s).mqtt_global_initialized := by
      simp [pthread_once, honce]
    have hse : (pthread_once s).stats_enabled = (mqtt_init s).stats_enabled := by
      simp [pthread_once, honce]
    rw [hfl, hse]
    by_cases he : s.drivers = []
    · obtain ⟨-, b, c⟩ := hB he
      rw [b, c, hflag, hst]
      simp
    · by_cases hrc : (s.parse_arguments_stub s.mqtt_globals).1 = 0
      · obtain ⟨a, -, c⟩ := hA ⟨he, hrc⟩
        rw [a, c]
        simp [hl]
      · obtain ⟨-, b, c⟩ := hC ⟨he, hrc⟩
        rw [b, c, hflag, hst]
        simp

theorem mqtt_create_flags (s : State) (name : Option String) (tid : Int)
    (h1 : s.mqtt_global_initialized = true → s.stats_enabled = 1 ∧ s.mqtt_global_once = true)
    (h2 : s.mqtt_global_initialized = false → s.stats_enabled = 0) :
    ((mqtt_create s name tid).state.mqtt_global_initialized = true →
        (mqtt_create s name tid).state.stats_enabled = 1 ∧
          (mqtt_create s name tid).state.mqtt_global_once = true) ∧
      ((mqtt_create s name tid).state.mqtt_global_initialized = false →
        (mqtt_create s name tid).state.stats_enabled = 0) := by
  obtain ⟨-, -, g3, g4, g5, -⟩ := mqtt_create_same_globals s name tid
  rw [g3, g4, g5]
  exact pthread_once_flags s h1 h2

theorem mqtt_create_calls_flags (s : State) (calls : List (Option String × Int))
    (h1 : s.mqtt_global_initialized = true → s.stats_enabled = 1 ∧ s.mqtt_global_once = true)
    (h2 : s.mqtt_global_initialized = false → s.stats_enabled = 0) :
    ((mqtt_create_calls s calls).1.mqtt_global_initialized = true →
        (mqtt_create_calls s calls).1.stats_enabled = 1 ∧
          (mqtt_create_calls s calls).1.mqtt_global_once = true) ∧
      ((mqtt_create_calls s calls).1.mqtt_global_initialized = false →
        (mqtt_create_calls s calls).1.stats_enabled = 0) := by
  induction calls generalizing s with
  | nil => exact ⟨h1, h2⟩
  | cons c rest ih =>
    obtain ⟨name, tid⟩ := c
    obtain ⟨k1, k2⟩ := mqtt_create_flags s name tid h1 h2
    cases hret : (mqtt_create s name tid).ret with
    | undefined f =>
      simp only [mqtt_create_calls, hret]
      exact ⟨k1, k2⟩
    | NULL =>
      simp only [mqtt_create_calls, hret]
      exact ih _ k1 k2
    | drv i =>
      simp only [mqtt_create_calls, hret]
      exact ih _ k1 k2

/-- Once set, `mqtt_global_initialized` stays set over a call, provided the latch is set
with it. -/
theorem mqtt_create_keeps_initialized (s : State) (name : Option String) (tid : Int)
    (h : s.mqtt_global_initialized = true) (honce : s.mqtt_global_once = true) :
    (mqtt_create s name tid).state.mqtt_global_initialized = true := by
  obtain ⟨-, -, -, g4, -, -⟩ := mqtt_create_same_globals s name tid
  rw [g4, pthread_once_latched s honce, h]

theorem mqtt_create_calls_keeps_initialized (s : State) (calls : List (Option String × Int))
    (h : s.mqtt_global_initialized = true) (honce : s.mqtt_global_once = true) :
    (mqtt_create_calls s calls).1.mqtt_global_initialized = true := by
  induction calls generalizing s with
  | nil => exact h
  | cons c rest ih =>
    obtain ⟨name, tid⟩ := c
    have k := mqtt_create_keeps_initialized s name tid h honce
    have ko : (mqtt_create s name tid).state.mqtt_global_once = true := by
      obtain ⟨-, -, -, -, g5, -⟩ := mqtt_create_same_globals s name tid
      rw [g5]
      exact pthread_once_sets_latch s
    cases hret : (mqtt_create s name tid).ret with
    | undefined f =>
      simp only [mqtt_create_calls, hret]
      exact k
    | NULL =>
      simp only [mqtt_create_calls, hret]
      exact ih _ k ko
    | drv i =>
      simp only [mqtt_create_calls, hret]
      exact ih _ k ko

/-- A sequence of calls in which a handle is returned ends with global initialisation
complete. -/
theorem mqtt_create_calls_handle_initialized (s : State) (calls : List (Option String × Int))
    (i : Nat) (h : mqtt_ret.drv i ∈ (mqtt_create_calls s calls).2) :
    (mqtt_create_calls s calls).1.mqtt_global_initialized = true := by
  induction calls generalizing s with
  | nil => simp [mqtt_create_calls] at h
  | cons c rest ih =>
    obtain ⟨name, tid⟩ := c
    have ko : (mqtt_create s name tid).state.mqtt_global_once = true := by
      obtain ⟨-, -, -, -, g5, -⟩ := mqtt_create_same_globals s name tid
      rw [g5]
      exact pthread_once_sets_latch s
    cases hret : (mqtt_create s name tid).ret with
    | undefined f =>
      simp [mqtt_create_calls, hret] at h
    | NULL =>
      simp only [mqtt_create_calls, hret, List.mem_cons] at h ⊢
      rcases h with h | h
      · cases h
      · exact ih _ h
    | drv j =>
      simp only [mqtt_create_calls, hret]
      have hg := mqtt_create_ret_drv_initialized s name tid j hret
      have k : (mqtt_create s name tid).state.mqtt_global_initialized = true := by
        obtain ⟨-, -, -, g4, -, -⟩ := mqtt_create_same_globals s name tid
        rw [g4, hg]
      exact mqtt_create_calls_keeps_initialized _ rest k ko

/-- C11, as the code has it.  For every sequence of `mqtt_create` calls that starts in the
initial process state: `check_print_stats` returns false before the first call; at the
point after the sequence it returns true exactly when global initialisation has
completed (`mqtt_global_initialized`), whether or not a call has returned a handle; so
it returns true at every point after a call that returned a handle. -/
theorem mqtt_create_calls_stats_flag (s0 : State) (calls : List (Option String × Int))
    (h0 : initial_state s0) :
    check_print_stats s0 = false ∧
      check_print_stats (mqtt_create_calls s0 calls).1
        = (mqtt_create_calls s0 calls).1.mqtt_global_initialized ∧
      ((∃ i, mqtt_ret.drv i ∈ (mqtt_create_calls s0 calls).2) →
        check_print_stats (mqtt_create_calls s0 calls).1 = true) := by
  obtain ⟨honce, hflag, hstats⟩ := h0
  have h1 : s0.mqtt_global_initialized = true →
      s0.stats_enabled = 1 ∧ s0.mqtt_global_once = true := by
    intro h
    rw [hflag] at h
    cases h
  have h2 : s0.mqtt_global_initialized = false → s0.stats_enabled = 0 := fun _ => hstats
  obtain ⟨k1, k2⟩ := mqtt_create_calls_flags s0 calls h1 h2
  have heq : check_print_stats (mqtt_create_calls s0 calls).1
      = (mqtt_create_calls s0 calls).1.mqtt_global_initialized := by
    cases hf : (mqtt_create_calls s0 calls).1.mqtt_global_initialized
    · simp [check_print_stats, k2 hf]
    · simp [check_print_stats, (k1 hf).1]
  refine ⟨by simp [check_print_stats, hstats], heq, ?_⟩
  rintro ⟨i, hi⟩
  rw [heq]
  exact mqtt_create_calls_handle_initialized s0 calls i hi

/-- Witness of C11: a failing call followed by a successful one. -/
theorem mqtt_create_calls_stats_flag_witness :
    check_print_stats (fresh_state [stub_driver "alpha"] none none) = false ∧
      check_print_stats
          (mqtt_create_calls (fresh_state [stub_driver "alpha"] none none)
            [(some "nope", 1), (some "alpha", 1)]).1
        = (mqtt_create_calls (fresh_state [stub_driver "alpha"] none none)
            [(some "nope", 1), (some "alpha", 1)]).1.mqtt_global_initialized ∧
      ((∃ i, mqtt_ret.drv i ∈
          (mqtt_create_calls (fresh_state [stub_driver "alpha"] none none)
            [(some "nope", 1), (some "alpha", 1)]).2) →
        check_print_stats
          (mqtt_create_calls (fresh_state [stub_driver "alpha"] none none)
            [(some "nope", 1), (some "alpha", 1)]).1 = true) :=
  mqtt_create_calls_stats_flag (fresh_state [stub_driver "alpha"] none none)
    [(some "nope", 1), (some "alpha", 1)] ⟨rfl, rfl, rfl⟩

/-- C11 as stated fails: from the initial process state with one registered driver, a
first call with an unknown name runs `mqtt_init` successfully and returns `NULL`; no call
has returned a handle, yet `check_print_stats` returns true. -/
theorem mqtt_create_stats_enabled_without_handle :
    initial_state (fresh_state [stub_driver "alpha"] none none) ∧
      (mqtt_create_calls (fresh_state [stub_driver "alpha"] none none)
        [(some "nope", 1)]).2 = [.NULL] ∧
      check_print_stats
        (mqtt_create_calls (fresh_state [stub_driver "alpha"] none none)
          [(some "nope", 1)]).1 = true := by
  refine ⟨⟨rfl, rfl, rfl⟩, by decide, by decide⟩

/-! ## C17, C12: after a successful call -/

/-- A call returns a handle exactly on the path on which a descriptor is chosen and both
its one-time and its thread-local initialisation pass; the handle is the chosen
descriptor. -/
theorem mqtt_create_ret_drv (s : State) (name : Option String) (tid : Int) (i : Nat)
    (h : (mqtt_create s name tid).ret = .drv i) :
    ∃ d, resolves_to s name i d ∧ init_passes s i d = true ∧
      thread_init_passes s i d tid = true := by
  rcases mqtt_create_cases s name tid with ⟨-, -, hne⟩ | ⟨j, d, hres⟩
  · exact absurd h (hne i)
  · rw [mqtt_create_resolved_ret s name tid j d hres] at h
    by_cases hp : init_passes s j d = true ∧ thread_init_passes s j d tid = true
    · simp only [hp, and_self, if_true, mqtt_ret.drv.injEq] at h
      subst h
      exact ⟨d, hres, hp.1, hp.2⟩
    · simp [hp] at h

/-- The choice made by the selection part is unique. -/
theorem resolves_to_unique (s : State) (name : Option String) (i j : Nat)
    (d e : mqtt_driver_t) (h1 : resolves_to s name i d) (h2 : resolves_to s name j e) :
    i = j ∧ d = e := by
  have := h1.2.symm.trans h2.2
  simp only [mqtt_selection.found.injEq] at this
  exact this

/-- The implication from `mqtt_global_initialized` to `stats_enabled = 1` is kept by
`pthread_once`. -/
theorem pthread_once_stats (s : State)
    (h : s.mqtt_global_initialized = true → s.stats_enabled = 1) :
    (pthread_once s).mqtt_global_initialized = true → (pthread_once s).stats_enabled = 1 := by
  by_cases honce : s.mqtt_global_once = true
  · rw [pthread_once_latched s honce]
    exact h
  · simp only [Bool.not_eq_true] at honce
    obtain ⟨hA, hB, hC⟩ := mqtt_init_paths s
    have hfl : (pthread_once s).mqtt_global_initialized = (mqtt_init s).mqtt_global_initialized := by
      simp [pthread_once, honce]
    have hse : (pthread_once s).stats_enabled = (mqtt_init s).stats_enabled := by
      simp [pthread_once, honce]
    rw [hfl, hse]
    by_cases he : s.drivers = []
    · obtain ⟨-, b, c⟩ := hB he
      rw [b, c]
      exact h
    · by_cases hrc : (s.parse_arguments_stub s.mqtt_globals).1 = 0
      · obtain ⟨-, -, c⟩ := hA ⟨he, hrc⟩
        exact fun _ => c
      · obtain ⟨-, b, c⟩ := hC ⟨he, hrc⟩
        rw [b, c]
        exact h

/-- What a returned handle implies in an arbitrary state; `stats_enabled` is 1 after the
call when, on entry, it was 1 if `mqtt_global_initialized` was true. -/
theorem mqtt_create_success_facts (s : State) (name : Option String) (tid : Int)
    (i : Nat) (hret : (mqtt_create s name tid).ret = .drv i) :
    (∃ d, s.drivers[i]? = some d ∧ resolves_to s name i d ∧
        (mqtt_create s name tid).state.drivers[i]?
          = some { d with initialized := true, mutex := false } ∧
        ∀ f, d.ops.thread_init = some f →
          (mqtt_create_events s name tid).filter Event.is_any_thread_init
            = [Event.thread_init i tid 0]) ∧
      (mqtt_create s name tid).state.mqtt_global_initialized = true ∧
      ((s.mqtt_global_initialized = true → s.stats_enabled = 1) →
        (mqtt_create s name tid).state.stats_enabled = 1) ∧
      (∀ (s0 : State) (calls : List (Option String × Int)),
        initial_state s0 → s = (mqtt_create_calls s0 calls).1 →
        (mqtt_create s name tid).state.stats_enabled = 1) := by
  obtain ⟨-, -, g3, g4, -, -⟩ := mqtt_create_same_globals s name tid
  have hg : (mqtt_create s name tid).state.mqtt_global_initialized = true := by
    rw [g4]
    exact mqtt_create_ret_drv_initialized s name tid i hret
  obtain ⟨d, hres, hip, htp⟩ := mqtt_create_ret_drv s name tid i hret
  obtain ⟨-, hget, -⟩ := resolves_to_state s name i d hres
  have hstats : (s.mqtt_global_initialized = true → s.stats_enabled = 1) →
      (mqtt_create s name tid).state.stats_enabled = 1 := by
    intro hinv
    rw [g3]
    apply pthread_once_stats s hinv
    rw [← g4]
    exact hg
  refine ⟨⟨d, hget, hres, ?_, ?_⟩, hg, hstats, ?_⟩
  · rw [mqtt_create_resolved_descriptor s name tid i d hres, hip]
  · intro f hf
    obtain ⟨-, hft⟩ := mqtt_create_resolved_events s name tid i d hres
    have hrc : f tid (thread_init_calls i s.trace) = 0 := by
      simpa [thread_init_passes, hf] using htp
    rw [hft]
    simp [hip, hf, hrc]
  · intro s0 calls h0 hs
    obtain ⟨honce, hflag, hst0⟩ := h0
    have h1 : s0.mqtt_global_initialized = true →
        s0.stats_enabled = 1 ∧ s0.mqtt_global_once = true := by
      intro h
      rw [hflag] at h
      cases h
    have h2 : s0.mqtt_global_initialized = false → s0.stats_enabled = 0 := fun _ => hst0
    obtain ⟨k1, -⟩ := mqtt_create_calls_flags s0 calls h1 h2
    apply hstats
    rw [hs]
    exact fun h => (k1 h).1

/-- In every state that the process reaches from its initial state by calls of
`mqtt_register` and `mqtt_create`, `stats_enabled` is 1 when `mqtt_global_initialized`
is true. -/
theorem mqtt_api_calls_stats (s : State) (calls : List mqtt_api_call)
    (h : s.mqtt_global_initialized = true → s.stats_enabled = 1) :
    (mqtt_api_calls s calls).mqtt_global_initialized = true →
      (mqtt_api_calls s calls).stats_enabled = 1 := by
  induction calls generalizing s with
  | nil => exact h
  | cons c rest ih =>
    cases c with
    | register regs db_args =>
      simp only [mqtt_api_calls]
      exact ih _ h
    | create name tid =>
      have k : (mqtt_create s name tid).state.mqtt_global_initialized = true →
          (mqtt_create s name tid).state.stats_enabled = 1 := by
        obtain ⟨-, -, g3, g4, -, -⟩ := mqtt_create_same_globals s name tid
        rw [g3, g4]
        exact pthread_once_stats s h
      cases hret : (mqtt_create s name tid).ret with
      | undefined f =>
        simp only [mqtt_api_calls, hret]
        exact k
      | NULL =>
        simp only [mqtt_api_calls, hret]
        exact ih _ k
      | drv i =>
        simp only [mqtt_api_calls, hret]
        exact ih _ k

/-- C17. In every state of the process, that is every state reached from the initial
process state by a sequence of `mqtt_register` and `mqtt_create` calls, and for every
argument and every calling thread: if `mqtt_create` returns a non-null descriptor
pointer, then the pointer points into the registry, at the descriptor that the selection
chose; that descriptor is initialised after the call; `mqtt_global_initialized` is true
and `stats_enabled` is 1; and if the descriptor has a `thread_init`, the call invoked it
once, for the calling thread, and it returned 0. -/
theorem mqtt_create_success_postcondition (s0 : State) (calls : List mqtt_api_call)
    (name : Option String) (tid : Int) (i : Nat)
    (h0 : initial_state s0)
    (hret : (mqtt_create (mqtt_api_calls s0 calls) name tid).ret = .drv i) :
    (∃ d, (mqtt_api_calls s0 calls).drivers[i]? = some d ∧
        resolves_to (mqtt_api_calls s0 calls) name i d ∧
        (mqtt_create (mqtt_api_calls s0 calls) name tid).state.drivers[i]?
          = some { d with initialized := true, mutex := false } ∧
        ∀ f, d.ops.thread_init = some f →
          (mqtt_create_events (mqtt_api_calls s0 calls) name tid).filter
            Event.is_any_thread_init = [Event.thread_init i tid 0]) ∧
      (mqtt_create (mqtt_api_calls s0 calls) name tid).state.mqtt_global_initialized = true ∧
      (mqtt_create (mqtt_api_calls s0 calls) name tid).state.stats_enabled = 1 := by
  obtain ⟨hd, hg, hstats, -⟩ := mqtt_create_success_facts (mqtt_api_calls s0 calls) name tid i hret
  refine ⟨hd, hg, hstats ?_⟩
  apply mqtt_api_calls_stats s0 calls
  intro h
  rw [h0.2.1] at h
  cases h

/-- Witness of C17: from process start, registration of a driver with a `thread_init`, a
call with an unknown name, then the call by name. -/
theorem mqtt_create_success_postcondition_witness :
    (∃ d, (mqtt_api_calls (fresh_state [] none none)
          [.register [stub_driver_with "alpha" (fun _ => 0) (some (fun _ _ => 0))]
              sample_db_args,
            .create (some "nope") 1]).drivers[0]? = some d ∧
        resolves_to
          (mqtt_api_calls (fresh_state [] none none)
            [.register [stub_driver_with "alpha" (fun _ => 0) (some (fun _ _ => 0))]
                sample_db_args,
              .create (some "nope") 1]) (some "alpha") 0 d ∧
        (mqtt_create
          (mqtt_api_calls (fresh_state [] none none)
            [.register [stub_driver_with "alpha" (fun _ => 0) (some (fun _ _ => 0))]
                sample_db_args,
              .create (some "nope") 1]) (some "alpha") 7).state.drivers[0]?
          = some { d with initialized := true, mutex := false } ∧
        ∀ f, d.ops.thread_init = some f →
          (mqtt_create_events
            (mqtt_api_calls (fresh_state [] none none)
              [.register [stub_driver_with "alpha" (fun _ => 0) (some (fun _ _ => 0))]
                  sample_db_args,
                .create (some "nope") 1]) (some "alpha") 7).filter
            Event.is_any_thread_init = [Event.thread_init 0 7 0]) ∧
      (mqtt_create
        (mqtt_api_calls (fresh_state [] none none)
          [.register [stub_driver_with "alpha" (fun _ => 0) (some (fun _ _ => 0))]
              sample_db_args,
            .create (some "nope") 1]) (some "alpha") 7).state.mqtt_global_initialized
        = true ∧
      (mqtt_create
        (mqtt_api_calls (fresh_state [] none none)
          [.register [stub_driver_with "alpha" (fun _ => 0) (some (fun _ _ => 0))]
              sample_db_args,
            .create (some "nope") 1]) (some "alpha") 7).state.stats_enabled = 1 :=
  mqtt_create_success_postcondition (fresh_state [] none none)
    [.register [stub_driver_with "alpha" (fun _ => 0) (some (fun _ _ => 0))] sample_db_args,
      .create (some "nope") 1]
    (some "alpha") 7 0 ⟨rfl, rfl, rfl⟩ (by decide)

/-- C12. Let a `mqtt_create` call return the descriptor at position `i`.  Then after any
further sequence of `mqtt_create` calls, every call, from any thread, that chooses the
descriptor at position `i` invokes no `ops.init` of it, and returns it if its
`thread_init` is absent or returns 0 for the calling thread. -/
theorem mqtt_create_after_success (s : State) (name : Option String) (tid : Int) (i : Nat)
    (between : List (Option String × Int)) (name2 : Option String) (tid2 : Int)
    (d2 : mqtt_driver_t)
    (hret : (mqtt_create s name tid).ret = .drv i)
    (hres2 : resolves_to (mqtt_create_calls (mqtt_create s name tid).state between).1 name2 i d2) :
    (mqtt_create_events (mqtt_create_calls (mqtt_create s name tid).state between).1
        name2 tid2).filter (Event.is_init i) = [] ∧
      (thread_init_passes (mqtt_create_calls (mqtt_create s name tid).state between).1 i d2 tid2
          = true →
        (mqtt_create (mqtt_create_calls (mqtt_create s name tid).state between).1
          name2 tid2).ret = .drv i) := by
  obtain ⟨d, hres, hip, -⟩ := mqtt_create_ret_drv s name tid i hret
  have hdesc := mqtt_create_resolved_descriptor s name tid i d hres
  rw [hip] at hdesc
  have hinit1 : initialized_at (mqtt_create s name tid).state i = true := by
    simp [initialized_at, hdesc]
  obtain ⟨evs, -, -, hkeep, -⟩ := mqtt_create_calls_step (mqtt_create s name tid).state between i
  have hinit2 := (hkeep hinit1).2
  obtain ⟨-, hget2, -⟩ := resolves_to_state _ name2 i d2 hres2
  have hd2 : d2.initialized = true := by
    simpa [initialized_at, hget2] using hinit2
  obtain ⟨hfi, -⟩ := mqtt_create_resolved_events _ name2 tid2 i d2 hres2
  refine ⟨by rw [hfi]; simp [hd2], ?_⟩
  intro htp
  rw [mqtt_create_resolved_ret _ name2 tid2 i d2 hres2]
  simp [init_passes, hd2, htp]

/-- Witness of C12, the scenario of the claim: the registry is `alpha`, `beta`;
`mqtt_create(NULL)` fails; `mqtt_create("alpha")` returns `alpha`; a second
`mqtt_create("alpha")`, from another thread, returns `alpha` and invokes no `init`, so
that `init` of `alpha` has run once in all. -/
theorem mqtt_create_after_success_witness :
    (mqtt_create (fresh_state [stub_driver "alpha", stub_driver "beta"] none none)
        none 1).ret = .NULL ∧
      (mqtt_create
        (mqtt_create (fresh_state [stub_driver "alpha", stub_driver "beta"] none none)
          none 1).state (some "alpha") 1).ret = .drv 0 ∧
      (mqtt_create
        (mqtt_create
          (mqtt_create (fresh_state [stub_driver "alpha", stub_driver "beta"] none none)
            none 1).state (some "alpha") 1).state (some "alpha") 2).ret = .drv 0 ∧
      init_calls 0
        (mqtt_create
          (mqtt_create
            (mqtt_create (fresh_state [stub_driver "alpha", stub_driver "beta"] none none)
              none 1).state (some "alpha") 1).state (some "alpha") 2).state.trace = 1 ∧
      ((mqtt_create_events
          (mqtt_create_calls
            (mqtt_create
              (mqtt_create (fresh_state [stub_driver "alpha", stub_driver "beta"] none none)
                none 1).state (some "alpha") 1).state []).1
          (some "alpha") 2).filter (Event.is_init 0) = [] ∧
        (thread_init_passes
            (mqtt_create_calls
              (mqtt_create
                (mqtt_create (fresh_state [stub_driver "alpha", stub_driver "beta"] none none)
                  none 1).state (some "alpha") 1).state []).1
            0 { stub_driver "alpha" with initialized := true } 2 = true →
          (mqtt_create
            (mqtt_create_calls
              (mqtt_create
                (mqtt_create (fresh_state [stub_driver "alpha", stub_driver "beta"] none none)
                  none 1).state (some "alpha") 1).state []).1
            (some "alpha") 2).ret = .drv 0)) :=
  ⟨by decide, by decide, by decide, by decide,
    mqtt_create_after_success
      (mqtt_create (fresh_state [stub_driver "alpha", stub_driver "beta"] none none)
        none 1).state
      (some "alpha") 1 0 [] (some "alpha") 2 { stub_driver "alpha" with initialized := true }
      (by decide) ⟨by decide, rfl⟩⟩

/-! ## C13: the `initialized` flag and successful `init` calls -/

/-- Lines 208 to 227 write to the chosen descriptor only. -/
theorem mqtt_create_init_others (s2 : State) (i : Nat) (d : mqtt_driver_t) (tid : Int) (j : Nat)
    (hji : j ≠ i) :
    (mqtt_create_init s2 i d tid).state.drivers[j]? = s2.drivers[j]? := by
  rcases mqtt_create_init_cases s2 i d tid with
    ⟨-, -, heq⟩ | ⟨s3, -, (⟨-, hs3⟩ | ⟨-, -, hs3⟩), hthr⟩
  · rw [heq]
    simp [update_at_getElem?, hji]
  · have hdr : (mqtt_create_init s2 i d tid).state.drivers = s3.drivers := by
      rcases hthr with ⟨-, heq⟩ | ⟨f, -, -, heq⟩ | ⟨f, -, -, heq⟩ <;> rw [heq] <;> rfl
    rw [hdr, hs3]
    simp [update_at_getElem?, hji]
  · have hdr : (mqtt_create_init s2 i d tid).state.drivers = s3.drivers := by
      rcases hthr with ⟨-, heq⟩ | ⟨f, -, -, heq⟩ | ⟨f, -, -, heq⟩ <;> rw [heq] <;> rfl
    rw [hdr, hs3]
    simp [update_at_getElem?, hji]

/-- A call writes to no descriptor but the chosen one. -/
theorem mqtt_create_others (s : State) (name : Option String) (tid : Int) (j : Nat)
    (h : ∀ d, ¬ resolves_to s name j d) :
    (mqtt_create s name tid).state.drivers[j]? = s.drivers[j]? := by
  rcases mqtt_create_cases s name tid with ⟨hdr, -, -⟩ | ⟨i, d, hres⟩
  · rw [hdr]
  · have hji : j ≠ i := by
      intro hji
      subst hji
      exact h d hres
    obtain ⟨hdr, -, -⟩ := resolves_to_state s name i d hres
    rw [mqtt_create_resolved s name tid i d hres, mqtt_create_init_others _ i d tid j hji, hdr]

theorem init_ok_calls_filter (i : Nat) (evs : List Event) :
    init_ok_calls i (evs.filter (Event.is_init i)) = init_ok_calls i evs := by
  induction evs with
  | nil => rfl
  | cons e evs ih =>
    simp only [init_ok_calls] at ih ⊢
    cases e with
    | init j rc =>
      by_cases hj : j = i <;>
        simp [List.filter_cons, List.countP_cons, Event.is_init, Event.is_init_ok, hj, ih]
    | _ => simp [List.filter_cons, List.countP_cons, Event.is_init, Event.is_init_ok, ih]

/-- A descriptor that is initialised after a call was initialised before it, or its
`init` returned 0 in the call. -/
theorem mqtt_create_initialized_origin (s : State) (name : Option String) (tid : Int) (j : Nat)
    (h : initialized_at (mqtt_create s name tid).state j = true) :
    initialized_at s j = true ∨ 0 < init_ok_calls j (mqtt_create_events s name tid) := by
  by_cases hres : ∃ d, resolves_to s name j d
  · obtain ⟨d, hres⟩ := hres
    obtain ⟨-, hget, -⟩ := resolves_to_state s name j d hres
    have hdesc := mqtt_create_resolved_descriptor s name tid j d hres
    have hp : init_passes s j d = true := by
      simpa [initialized_at, hdesc] using h
    cases hi : d.initialized
    · right
      have hrc : d.ops.init (init_calls j s.trace) = 0 := by
        simpa [init_passes, hi] using hp
      obtain ⟨hfi, -⟩ := mqtt_create_resolved_events s name tid j d hres
      rw [← init_ok_calls_filter, hfi]
      simp [hi, hrc, init_ok_calls, Event.is_init_ok]
    · left
      simp [initialized_at, hget, hi]
  · left
    have := mqtt_create_others s name tid j (fun d hd => hres ⟨d, hd⟩)
    simpa [initialized_at, this] using h

theorem mqtt_create_calls_events_cons (s : State) (name : Option String) (tid : Int)
    (rest : List (Option String × Int))
    (h : ∀ f, (mqtt_create s name tid).ret ≠ .undefined f) :
    mqtt_create_calls_events s ((name, tid) :: rest) =
      mqtt_create_events s name tid
        ++ mqtt_create_calls_events (mqtt_create s name tid).state rest := by
  have h1 : (mqtt_create_calls s ((name, tid) :: rest)).1
      = (mqtt_create_calls (mqtt_create s name tid).state rest).1 := by
    cases hret : (mqtt_create s name tid).ret with
    | undefined f => exact absurd hret (h f)
    | NULL => simp [mqtt_create_calls, hret]
    | drv i => simp [mqtt_create_calls, hret]
  rw [mqtt_create_calls_events, h1, mqtt_create_calls_trace, mqtt_create_trace,
    List.append_assoc, drop_length_append]

theorem mqtt_create_calls_events_fault (s : State) (name : Option String) (tid : Int)
    (rest : List (Option String × Int)) (f : mqtt_fault)
    (h : (mqtt_create s name tid).ret = .undefined f) :
    (mqtt_create_calls s ((name, tid) :: rest)).1 = (mqtt_create s name tid).state ∧
      mqtt_create_calls_events s ((name, tid) :: rest) = mqtt_create_events s name tid := by
  have h1 : (mqtt_create_calls s ((name, tid) :: rest)).1 = (mqtt_create s name tid).state := by
    simp [mqtt_create_calls, h]
  exact ⟨h1, by rw [mqtt_create_calls_events, h1, mqtt_create_events]⟩

/-- A descriptor that is initialised after a sequence of calls was initialised before it,
or its `init` returned 0 in the sequence. -/
theorem mqtt_create_calls_initialized_origin (s : State) (calls : List (Option String × Int))
    (j : Nat) (h : initialized_at (mqtt_create_calls s calls).1 j = true) :
    initialized_at s j = true ∨ 0 < init_ok_calls j (mqtt_create_calls_events s calls) := by
  induction calls generalizing s with
  | nil => exact Or.inl h
  | cons c rest ih =>
    obtain ⟨name, tid⟩ := c
    by_cases hf : ∃ f, (mqtt_create s name tid).ret = .undefined f
    · obtain ⟨f, hf⟩ := hf
      obtain ⟨h1, h2⟩ := mqtt_create_calls_events_fault s name tid rest f hf
      rw [h1] at h
      rw [h2]
      exact mqtt_create_initialized_origin s name tid j h
    · have hnf : ∀ f, (mqtt_create s name tid).ret ≠ .undefined f := fun f hx => hf ⟨f, hx⟩
      have h1 : (mqtt_create_calls s ((name, tid) :: rest)).1
          = (mqtt_create_calls (mqtt_create s name tid).state rest).1 := by
        cases hret : (mqtt_create s name tid).ret with
        | undefined f => exact absurd hret (hnf f)
        | NULL => simp [mqtt_create_calls, hret]
        | drv i => simp [mqtt_create_calls, hret]
      rw [h1] at h
      rw [mqtt_create_calls_events_cons s name tid rest hnf]
      have hok : ∀ a b : List Event,
          init_ok_calls j (a ++ b) = init_ok_calls j a + init_ok_calls j b := by
        intro a b
        simp [init_ok_calls, List.countP_append]
      rw [hok]
      rcases ih _ h with h2 | h2
      · rcases mqtt_create_initialized_origin s name tid j h2 with h3 | h3
        · exact Or.inl h3
        · exact Or.inr (by omega)
      · exact Or.inr (by omega)

theorem mqtt_register_loop_getElem? (regs : List mqtt_driver_t) (options : List (List sb_arg_t))
    (j : Nat) :
    (mqtt_register_loop regs options).1[j]?
      = regs[j]?.map (fun d => { d with initialized := false, mutex := false }) := by
  induction regs generalizing options j with
  | nil => simp [mqtt_register_loop]
  | cons d regs ih =>
    cases j with
    | zero => simp [mqtt_register_loop]
    | succ j => simp [mqtt_register_loop, ih]

/-- Right after `mqtt_register` no descriptor is initialised. -/
theorem mqtt_register_initialized_at (s : State) (regs : List mqtt_driver_t)
    (db_args : List sb_arg_t) (options : List (List sb_arg_t)) (j : Nat) :
    initialized_at (mqtt_register s regs db_args options).state j = false := by
  simp only [initialized_at, mqtt_register, mqtt_register_loop_getElem?]
  cases regs[j]? <;> simp

/-- C13. In every state reached from `mqtt_register` by a sequence of `mqtt_create` calls,
for every position `i` of the registry: the descriptor at position `i` is initialised if
and only if, since registration, an invocation of its `ops.init` has returned 0. -/
theorem mqtt_register_create_initialized_iff (s : State) (regs : List mqtt_driver_t)
    (db_args : List sb_arg_t) (options : List (List sb_arg_t))
    (calls : List (Option String × Int)) (i : Nat) :
    (initialized_at (mqtt_create_calls (mqtt_register s regs db_args options).state calls).1 i
        = true ↔
      0 < init_ok_calls i
        (mqtt_create_calls_events (mqtt_register s regs db_args options).state calls)) ∧
    ∀ d, (mqtt_create_calls (mqtt_register s regs db_args options).state calls).1.drivers[i]?
        = some d →
      (d.initialized = true ↔
        0 < init_ok_calls i
          (mqtt_create_calls_events (mqtt_register s regs db_args options).state calls)) := by
  have hiff : initialized_at
        (mqtt_create_calls (mqtt_register s regs db_args options).state calls).1 i = true ↔
      0 < init_ok_calls i
        (mqtt_create_calls_events (mqtt_register s regs db_args options).state calls) := by
    constructor
    · intro h
      rcases mqtt_create_calls_initialized_origin _ calls i h with h1 | h1
      · rw [mqtt_register_initialized_at] at h1
        cases h1
      · exact h1
    · intro h
      obtain ⟨evs, htr, -, -, hok⟩ :=
        mqtt_create_calls_step (mqtt_register s regs db_args options).state calls i
      have hev : mqtt_create_calls_events (mqtt_register s regs db_args options).state calls
          = evs := by
        rw [mqtt_create_calls_events, htr, drop_length_append]
      rw [hev] at h
      exact hok h
  refine ⟨hiff, ?_⟩
  intro d hd
  rw [← hiff]
  simp [initialized_at, hd]

/-! ## C18: the frame of `mqtt_create` -/

theorem mqtt_create_init_length (s2 : State) (i : Nat) (d : mqtt_driver_t) (tid : Int) :
    (mqtt_create_init s2 i d tid).state.drivers.length = s2.drivers.length := by
  rcases mqtt_create_init_cases s2 i d tid with
    ⟨-, -, heq⟩ | ⟨s3, -, (⟨-, hs3⟩ | ⟨-, -, hs3⟩), hthr⟩
  · rw [heq]
    simp [update_at_length]
  · have hdr : (mqtt_create_init s2 i d tid).state.drivers = s3.drivers := by
      rcases hthr with ⟨-, heq⟩ | ⟨f, -, -, heq⟩ | ⟨f, -, -, heq⟩ <;> rw [heq] <;> rfl
    rw [hdr, hs3]
    simp [update_at_length]
  · have hdr : (mqtt_create_init s2 i d tid).state.drivers = s3.drivers := by
      rcases hthr with ⟨-, heq⟩ | ⟨f, -, -, heq⟩ | ⟨f, -, -, heq⟩ <;> rw [heq] <;> rfl
    rw [hdr, hs3]
    simp [update_at_length]

theorem mqtt_create_length (s : State) (name : Option String) (tid : Int) :
    (mqtt_create s name tid).state.drivers.length = s.drivers.length := by
  rcases mqtt_create_cases s name tid with ⟨hdr, -, -⟩ | ⟨i, d, hres⟩
  · rw [hdr]
  · obtain ⟨hdr, -, -⟩ := resolves_to_state s name i d hres
    rw [mqtt_create_resolved s name tid i d hres, mqtt_create_init_length, hdr]

/-- C18. For every state, every argument and every calling thread, a `mqtt_create` call
keeps the number of registered descriptors and, at every position, the identity of the
descriptor (names, declared options, operations); it never changes an `initialized` flag
from true to false; a descriptor whose `initialized` flag changes is the one the
selection chose, and the selection chooses at most one; and the call leaves
`mqtt_globals` as it was when the latch of `pthread_once` is set on entry, and as
`mqtt_init` left it otherwise; the latch is set when the call returns. -/
theorem mqtt_create_frame (s : State) (name : Option String) (tid : Int) :
    (mqtt_create s name tid).state.drivers.length = s.drivers.length ∧
      (∀ j d, s.drivers[j]? = some d →
        ∃ e, (mqtt_create s name tid).state.drivers[j]? = some e ∧
          e.sname = d.sname ∧ e.lname = d.lname ∧ e.args = d.args ∧ e.ops = d.ops ∧
          (d.initialized = true → e.initialized = true) ∧
          (e.initialized ≠ d.initialized → resolves_to s name j d)) ∧
      (∀ i j d e, resolves_to s name i d → resolves_to s name j e → i = j) ∧
      (mqtt_create s name tid).state.mqtt_globals
        = (if s.mqtt_global_once = true then s.mqtt_globals else (mqtt_init s).mqtt_globals) ∧
      (mqtt_create s name tid).state.mqtt_global_once = true := by
  refine ⟨mqtt_create_length s name tid, ?_, ?_, ?_, ?_⟩
  · intro j d hget
    by_cases hres : ∃ e, resolves_to s name j e
    · obtain ⟨e, hres⟩ := hres
      obtain ⟨-, hget2, -⟩ := resolves_to_state s name j e hres
      have hde : e = d := by
        rw [hget] at hget2
        exact (Option.some.inj hget2).symm
      subst hde
      refine ⟨_, mqtt_create_resolved_descriptor s name tid j e hres, rfl, rfl, rfl, rfl, ?_,
        fun _ => hres⟩
      intro hi
      simp [init_passes, hi]
    · refine ⟨d, ?_, rfl, rfl, rfl, rfl, fun h => h, fun h => absurd rfl h⟩
      rw [mqtt_create_others s name tid j (fun e he => hres ⟨e, he⟩)]
      exact hget
  · intro i j d e h1 h2
    exact (resolves_to_unique s name i j d e h1 h2).1
  · obtain ⟨g1, -⟩ := mqtt_create_same_globals s name tid
    rw [g1]
    by_cases honce : s.mqtt_global_once = true
    · rw [pthread_once_latched s honce]
      simp [honce]
    · simp [pthread_once, honce]
  · obtain ⟨-, -, -, -, g5, -⟩ := mqtt_create_same_globals s name tid
    rw [g5]
    exact pthread_once_sets_latch s

/-! ## C15: lock discipline -/

theorem mutex_held_append (i : Nat) (held : Bool) (a b : List Event) :
    mutex_held i held (a ++ b) = mutex_held i (mutex_held i held a) b := by
  induction a generalizing held with
  | nil => rfl
  | cons e a ih => cases e <;> simp [mutex_held, ih]

theorem lock_discipline_append (i : Nat) (held : Bool) (a b : List Event) :
    lock_discipline i held (a ++ b)
      = (lock_discipline i held a && lock_discipline i (mutex_held i held a) b) := by
  induction a generalizing held with
  | nil => simp [lock_discipline, mutex_held]
  | cons e a ih => cases e <;> simp [lock_discipline, mutex_held, ih, Bool.and_assoc]

theorem mutex_held_layer (i : Nat) (held : Bool) (evs : List Event)
    (h : ∀ e ∈ evs, e.is_layer_call = true) : mutex_held i held evs = held := by
  induction evs generalizing held with
  | nil => rfl
  | cons e evs ih =>
    have he := h e (List.mem_cons_self _ _)
    have ht : ∀ x ∈ evs, x.is_layer_call = true := fun x hx => h x (List.mem_cons_of_mem _ hx)
    cases e with
    | log_text _ _ _ => simpa [mutex_held] using ih held ht
    | parse_arguments _ => simpa [mutex_held] using ih held ht
    | reset_stats => simpa [mutex_held] using ih held ht
    | _ => simp [Event.is_layer_call] at he

theorem lock_discipline_layer (i : Nat) (held : Bool) (evs : List Event)
    (h : ∀ e ∈ evs, e.is_layer_call = true) : lock_discipline i held evs = true := by
  induction evs generalizing held with
  | nil => rfl
  | cons e evs ih =>
    have he := h e (List.mem_cons_self _ _)
    have ht : ∀ x ∈ evs, x.is_layer_call = true := fun x hx => h x (List.mem_cons_of_mem _ hx)
    cases e with
    | log_text _ _ _ => simpa [lock_discipline] using ih held ht
    | parse_arguments _ => simpa [lock_discipline] using ih held ht
    | reset_stats => simpa [lock_discipline] using ih held ht
    | _ => simp [Event.is_layer_call] at he

/-- What the check `lock_discipline` means at an `init` call. -/
theorem lock_discipline_init (i : Nat) (held : Bool) (pre post : List Event) (rc : Int)
    (h : lock_discipline i held (pre ++ Event.init i rc :: post) = true) :
    mutex_held i held pre = true := by
  rw [lock_discipline_append] at h
  simp only [lock_discipline, Bool.and_eq_true, Bool.or_eq_true, decide_eq_true_eq] at h
  rcases h.2.1 with h1 | h1
  · exact absurd rfl h1
  · exact h1

/-- What the check `lock_discipline` means at a `thread_init` call. -/
theorem lock_discipline_thread_init (i : Nat) (held : Bool) (pre post : List Event)
    (t rc : Int)
    (h : lock_discipline i held (pre ++ Event.thread_init i t rc :: post) = true) :
    mutex_held i held pre = false := by
  rw [lock_discipline_append] at h
  simp only [lock_discipline, Bool.and_eq_true, Bool.or_eq_true, decide_eq_true_eq,
    Bool.not_eq_true'] at h
  rcases h.2.1 with h1 | h1
  · exact absurd rfl h1
  · exact h1

/-- The calls of lines 208 to 227 keep the lock discipline of every descriptor, and lock
the mutex of the chosen descriptor only. -/
theorem mqtt_create_init_locks (s2 : State) (i : Nat) (d : mqtt_driver_t) (tid : Int) :
    ∃ devs, (mqtt_create_init s2 i d tid).state.trace = s2.trace ++ devs ∧
      (∀ j held, lock_discipline j held devs = true) ∧
      (∀ j, Event.mutex_lock j ∈ devs → j = i) := by
  rcases mqtt_create_init_cases s2 i d tid with
    ⟨-, -, heq⟩ | ⟨s3, -, (⟨-, hs3⟩ | ⟨-, -, hs3⟩), hthr⟩
  · rw [heq]
    refine ⟨[.mutex_lock i, .init i (d.ops.init (init_calls i s2.trace)), .mutex_unlock i],
      by simp, ?_, ?_⟩
    · intro j held
      by_cases hj : i = j <;> simp [lock_discipline, hj]
    · intro j hj
      simpa using hj
  · subst hs3
    rcases hthr with ⟨-, heq⟩ | ⟨f, -, -, heq⟩ | ⟨f, -, -, heq⟩
    · rw [heq]
      refine ⟨[.mutex_lock i, .mutex_unlock i], by simp, ?_, ?_⟩
      · intro j held
        by_cases hj : i = j <;> simp [lock_discipline, hj]
      · intro j hj
        simpa using hj
    · rw [heq]
      refine ⟨[.mutex_lock i, .mutex_unlock i, .thread_init i tid 0], by simp, ?_, ?_⟩
      · intro j held
        by_cases hj : i = j <;> simp [lock_discipline, hj]
      · intro j hj
        simpa using hj
    · rw [heq]
      refine ⟨[.mutex_lock i, .mutex_unlock i,
          .thread_init i tid (f tid (thread_init_calls i s2.trace)),
          .log_text .LOG_FATAL "thread-local driver initialization failed." []],
        by simp [log_text], ?_, ?_⟩
      · intro j held
        by_cases hj : i = j <;> simp [lock_discipline, hj]
      · intro j hj
        simpa using hj
  · subst hs3
    rcases hthr with ⟨-, heq⟩ | ⟨f, -, -, heq⟩ | ⟨f, -, -, heq⟩
    · rw [heq]
      refine ⟨[.mutex_lock i, .init i 0, .mutex_unlock i], by simp, ?_, ?_⟩
      · intro j held
        by_cases hj : i = j <;> simp [lock_discipline, hj]
      · intro j hj
        simpa using hj
    · rw [heq]
      refine ⟨[.mutex_lock i, .init i 0, .mutex_unlock i, .thread_init i tid 0],
        by simp, ?_, ?_⟩
      · intro j held
        by_cases hj : i = j <;> simp [lock_discipline, hj]
      · intro j hj
        simpa using hj
    · rw [heq]
      refine ⟨[.mutex_lock i, .init i 0, .mutex_unlock i,
          .thread_init i tid (f tid (thread_init_calls i s2.trace)),
          .log_text .LOG_FATAL "thread-local driver initialization failed." []],
        by simp [log_text], ?_, ?_⟩
      · intro j held
        by_cases hj : i = j <;> simp [lock_discipline, hj]
      · intro j hj
        simpa using hj

theorem layer_no_lock (evs : List Event) (h : ∀ e ∈ evs, e.is_layer_call = true) (j : Nat) :
    Event.mutex_lock j ∉ evs := by
  intro hj
  have := h _ hj
  simp [Event.is_layer_call] at this

/-- The calls of one `mqtt_create` call keep the lock discipline of every descriptor, and
lock the mutex of the chosen descriptor only. -/
theorem mqtt_create_locks (s : State) (name : Option String) (tid : Int) :
    (∀ j held, lock_discipline j held (mqtt_create_events s name tid) = true) ∧
      (∀ j, Event.mutex_lock j ∈ mqtt_create_events s name tid → ∃ d, resolves_to s name j d) := by
  rcases mqtt_create_cases s name tid with ⟨-, ⟨evs, htr, hl⟩, -⟩ | ⟨i, d, hres⟩
  · have hev : mqtt_create_events s name tid = evs := by
      rw [mqtt_create_events, htr, drop_length_append]
    rw [hev]
    exact ⟨fun j held => lock_discipline_layer j held evs hl,
      fun j hj => absurd hj (layer_no_lock evs hl j)⟩
  · obtain ⟨-, -, evs0, htr0, hl0⟩ := resolves_to_state s name i d hres
    obtain ⟨devs, htr, hdisc, hlock⟩ :=
      mqtt_create_init_locks (mqtt_select (pthread_once s) name).1 i d tid
    have hev : mqtt_create_events s name tid = evs0 ++ devs := by
      rw [mqtt_create_events, mqtt_create_resolved s name tid i d hres, htr, htr0,
        List.append_assoc, drop_length_append]
    rw [hev]
    refine ⟨?_, ?_⟩
    · intro j held
      rw [lock_discipline_append, lock_discipline_layer j held evs0 hl0, hdisc]
      rfl
    · intro j hj
      rcases List.mem_append.mp hj with hj | hj
      · exact absurd hj (layer_no_lock evs0 hl0 j)
      · rw [hlock j hj]
        exact ⟨d, hres⟩

/-- C15. For every state, every argument and every calling thread, that is on every exit
path of `mqtt_create`: every descriptor whose mutex is released on entry has its mutex
released when the call returns; whenever the call invokes `ops.init` of a descriptor,
the mutex of that descriptor is held, locked earlier in the call and not unlocked since;
whenever the call invokes `ops.thread_init` of a descriptor, the mutex of that
descriptor is not held, unlocked earlier in the call and not locked since; and every
mutex the call locks is the mutex of the descriptor the selection chose.  The lock state
during the call is computed from the calls made so far (`mutex_held`), whatever it was
on entry. -/
theorem mqtt_create_lock_discipline (s : State) (name : Option String) (tid : Int) :
    (∀ (j : Nat) (d : mqtt_driver_t), s.drivers[j]? = some d →
        ∃ e : mqtt_driver_t, (mqtt_create s name tid).state.drivers[j]? = some e ∧
          (d.mutex = false → e.mutex = false)) ∧
      (∀ (j : Nat) (rc : Int) (pre post : List Event) (held : Bool),
        mqtt_create_events s name tid = pre ++ Event.init j rc :: post →
        mutex_held j held pre = true) ∧
      (∀ (j : Nat) (t rc : Int) (pre post : List Event) (held : Bool),
        mqtt_create_events s name tid = pre ++ Event.thread_init j t rc :: post →
        mutex_held j held pre = false) ∧
      (∀ j : Nat, Event.mutex_lock j ∈ mqtt_create_events s name tid →
        ∃ d, resolves_to s name j d) := by
  obtain ⟨hdisc, hlock⟩ := mqtt_create_locks s name tid
  refine ⟨?_, ?_, ?_, hlock⟩
  · intro j d hget
    by_cases hres : ∃ e, resolves_to s name j e
    · obtain ⟨e, hres⟩ := hres
      exact ⟨_, mqtt_create_resolved_descriptor s name tid j e hres, fun _ => rfl⟩
    · refine ⟨d, ?_, fun h => h⟩
      rw [mqtt_create_others s name tid j (fun e he => hres ⟨e, he⟩)]
      exact hget
  · intro j rc pre post held hsplit
    have := hdisc j held
    rw [hsplit] at this
    exact lock_discipline_init j held pre post rc this
  · intro j t rc pre post held hsplit
    have := hdisc j held
    rw [hsplit] at this
    exact lock_discipline_thread_init j held pre post t rc this

/-! ## C16: registration of the command line options -/

theorem mqtt_register_loop_options (regs : List mqtt_driver_t) (options : List (List sb_arg_t)) :
    (mqtt_register_loop regs options).2 = options ++ regs.filterMap (fun d => d.args) := by
  induction regs generalizing options with
  | nil => simp [mqtt_register_loop]
  | cons d regs ih =>
    cases hd : d.args with
    | none => simp [mqtt_register_loop, hd, ih, List.filterMap_cons]
    | some a => simp [mqtt_register_loop, hd, ih, List.filterMap_cons, sb_register_arg_set]

/-- After `mqtt_register` the global option set holds, after what it held before, the
declared option set of each registered descriptor that has one, in registration order,
and then the table `db_args`; the return value is 0, and the registry holds the
registered descriptors, none initialised. -/
theorem mqtt_register_outcome (s : State) (regs : List mqtt_driver_t) (db_args : List sb_arg_t)
    (options : List (List sb_arg_t)) :
    (mqtt_register s regs db_args options).options
        = options ++ regs.filterMap (fun d => d.args) ++ [db_args] ∧
      (mqtt_register s regs db_args options).ret = 0 ∧
      (mqtt_register s regs db_args options).state.drivers
        = regs.map (fun d => { d with initialized := false, mutex := false }) := by
  refine ⟨?_, rfl, ?_⟩
  · simp [mqtt_register, sb_register_arg_set, mqtt_register_loop_options]
  · apply List.ext_getElem?
    intro j
    simp [mqtt_register, mqtt_register_loop_getElem?]

/-- C16, evaluated where it fails: two descriptors are registered, the first with one
declared option, the second with none; `db_args` names the option table of the DB
layer.  After `mqtt_register` the global option set holds the option set of the first
descriptor and the DB layer table; the table `mqtt_args`, with its two options
`mqtt-driver` (string) and `mqtt-debug` (boolean), is not in it, whichever default
`mqtt-driver` has.  The return value is 0. -/
theorem mqtt_register_registers_db_args :
    (mqtt_register (fresh_state [] none none)
        [{ stub_driver "alpha" with
            args := some [{ name := "alpha-host", desc := "broker host", value := none,
                            type := .SB_ARG_TYPE_STRING }] },
          stub_driver "beta"]
        sample_db_args []).options
      = [[{ name := "alpha-host", desc := "broker host", value := none,
            type := .SB_ARG_TYPE_STRING }], sample_db_args] ∧
    mqtt_args false ∉
      (mqtt_register (fresh_state [] none none)
        [{ stub_driver "alpha" with
            args := some [{ name := "alpha-host", desc := "broker host", value := none,
                            type := .SB_ARG_TYPE_STRING }] },
          stub_driver "beta"]
        sample_db_args []).options ∧
    mqtt_args true ∉
      (mqtt_register (fresh_state [] none none)
        [{ stub_driver "alpha" with
            args := some [{ name := "alpha-host", desc := "broker host", value := none,
                            type := .SB_ARG_TYPE_STRING }] },
          stub_driver "beta"]
        sample_db_args []).options ∧
    (mqtt_args false).map (fun a => (a.name, a.type))
      = [("mqtt-driver", .SB_ARG_TYPE_STRING), ("mqtt-debug", .SB_ARG_TYPE_BOOL)] ∧
    (mqtt_args true).map (fun a => (a.name, a.type))
      = [("mqtt-driver", .SB_ARG_TYPE_STRING), ("mqtt-debug", .SB_ARG_TYPE_BOOL)] ∧
    (mqtt_register (fresh_state [] none none)
        [{ stub_driver "alpha" with
            args := some [{ name := "alpha-host", desc := "broker host", value := none,
                            type := .SB_ARG_TYPE_STRING }] },
          stub_driver "beta"]
        sample_db_args []).ret = 0 := by
  decide

/-! ## C19: a null name at the lookup -/

/-- A call passes a null name to `strcmp` exactly when global initialisation is complete,
no name is passed, `db_globals.driver` is set, `mqtt_globals.driver` is null and the
registry is not empty. -/
theorem mqtt_create_strcmp_null_iff (s : State) (name : Option String) (tid : Int) :
    (mqtt_create s name tid).ret = .undefined .strcmp_null_name ↔
      (pthread_once s).mqtt_global_initialized = true ∧ name = none ∧
        s.db_globals_driver ≠ none ∧ (pthread_once s).mqtt_globals.driver = none ∧
        s.drivers ≠ [] := by
  by_cases hg : (pthread_once s).mqtt_global_initialized = false
  · rw [mqtt_create_of_uninitialized s name tid hg]
    simp [hg]
  · simp only [Bool.not_eq_false] at hg
    have key : (mqtt_select (pthread_once s) name).2 = .fault .strcmp_null_name ↔
        name = none ∧ s.db_globals_driver ≠ none ∧ (pthread_once s).mqtt_globals.driver = none ∧
          s.drivers ≠ [] := by
      rw [← pthread_once_drivers s, ← pthread_once_db_globals_driver s]
      generalize pthread_once s = s1
      cases name with
      | some n =>
        simp only [mqtt_select_named, reduceCtorEq, false_and, iff_false]
        cases hl : lookup_loop (some n) s1.drivers 0 with
        | found i d => simp
        | not_found => simp
        | strcmp_null =>
          exfalso
          cases hds : s1.drivers with
          | nil => simp [hds, lookup_loop] at hl
          | cons a ds =>
            by_cases ha : a.sname = n
            · simp [hds, lookup_loop, ha] at hl
            · have : ∀ (l : List mqtt_driver_t) (k : Nat),
                  lookup_loop (some n) l k ≠ .strcmp_null := by
                intro l
                induction l with
                | nil => intro k; simp [lookup_loop]
                | cons b l ih =>
                  intro k
                  by_cases hb : b.sname = n
                  · simp [lookup_loop, hb]
                  · simpa [lookup_loop, hb] using ih (k + 1)
              exact this _ _ hl
      | none =>
        by_cases hdb : s1.db_globals_driver = none
        · simp only [hdb, ne_eq, not_true_eq_false, false_and, and_false, iff_false]
          unfold mqtt_select
          simp only [hdb, and_self, if_true]
          split
          · simp
          · split <;> simp
        · cases hm : s1.mqtt_globals.driver with
          | some n =>
            rw [mqtt_select_preselected s1 n hdb hm, mqtt_select_named]
            simp only [reduceCtorEq, false_and, and_false, iff_false]
            have : ∀ (l : List mqtt_driver_t) (k : Nat),
                lookup_loop (some n) l k ≠ .strcmp_null := by
              intro l
              induction l with
              | nil => intro k; simp [lookup_loop]
              | cons b l ih =>
                intro k
                by_cases hb : b.sname = n
                · simp [lookup_loop, hb]
                · simpa [lookup_loop, hb] using ih (k + 1)
            cases hl : lookup_loop (some n) s1.drivers 0 with
            | found i d => simp
            | not_found => simp
            | strcmp_null => exact absurd hl (this _ _)
          | none =>
            cases hds : s1.drivers with
            | nil => simp [mqtt_select, hdb, hm, hds, lookup_loop]
            | cons a ds => simp [mqtt_select, hdb, hm, hds, lookup_loop]
    rw [← key]
    cases hsel : (mqtt_select (pthread_once s) name).2 with
    | found i d =>
      rw [mqtt_create_resolved_ret s name tid i d ⟨hg, hsel⟩]
      simp only [hg, true_and, reduceCtorEq, iff_false]
      split <;> simp
    | err =>
      rw [mqtt_create_of_err s name tid hg hsel]
      simp [hg]
    | fault f =>
      rw [mqtt_create_of_fault s name tid f hg hsel]
      simp [hg]

/-- With a non-empty registry, the report of an invalid driver name formats a non-null
name: a null name does not get past the first `strcmp`. -/
theorem mqtt_select_invalid_name_report (s : State) (name : Option String)
    (level : log_msg_priority_t) (args : List (Option String)) (hne : s.drivers ≠ [])
    (h : (mqtt_select s name).1.trace
      = s.trace ++ [Event.log_text level "invalid mqtt driver name: '%s'" args]) :
    ∃ n, args = [some n] := by
  unfold mqtt_select at h
  split at h
  · split at h
    · simp at h
    · split at h
      · simp [log_text] at h
      · simp [log_text] at h
  · simp only [] at h
    split at h
    · simp at h
    · simp at h
    · rename_i hl
      simp only [log_text, record_trace, List.append_cancel_left_eq, List.cons.injEq,
        Event.log_text.injEq, and_true, true_and] at h
      obtain ⟨-, h⟩ := h
      cases hn : (if name = none then s.mqtt_globals.driver else name) with
      | some n => exact ⟨n, by rw [← h, hn]⟩
      | none =>
        exfalso
        rw [hn] at hl
        cases hds : s.drivers with
        | nil => exact hne hds
        | cons a ds => simp [hds, lookup_loop] at hl

/-- C19, evaluated where it fails: in a process whose global initialisation is complete,
with two registered descriptors, `db_globals.driver` set and `mqtt_globals.driver` null,
a call without a name takes the lookup branch with the null `mqtt_globals.driver` as
the effective name; the first iteration of the loop passes that null pointer to
`strcmp`. -/
theorem mqtt_create_null_name_reaches_strcmp :
    (mqtt_create (fresh_state [stub_driver "alpha", stub_driver "beta"] none (some "pgsql"))
        (some "beta") 1).ret = .drv 1 ∧
      (mqtt_create (fresh_state [stub_driver "alpha", stub_driver "beta"] none (some "pgsql"))
        (some "beta") 1).state.db_globals_driver = some "pgsql" ∧
      (mqtt_create (fresh_state [stub_driver "alpha", stub_driver "beta"] none (some "pgsql"))
        (some "beta") 1).state.mqtt_globals.driver = none ∧
      (mqtt_select
        (mqtt_create (fresh_state [stub_driver "alpha", stub_driver "beta"] none (some "pgsql"))
          (some "beta") 1).state none).2 = .fault .strcmp_null_name ∧
      (mqtt_create
        (mqtt_create (fresh_state [stub_driver "alpha", stub_driver "beta"] none (some "pgsql"))
          (some "beta") 1).state none 2).ret = .undefined .strcmp_null_name := by
  refine ⟨by decide, by decide, by decide, rfl, by decide⟩

end MqttDriver
